import Mathlib

/-!
# Snowflake ID generator: a shallow embedding of `snowflake.go`

The Go package keeps one mutable `Snowflake` record and reads the wall clock
through `time.Now()`.  Here

* `int64` values are integers, and every arithmetic or bitwise operator is the
  two's-complement one (`wrap64` reduces into `[-2^63, 2^63)`);
* the wall clock is a stream `Clock` of successive `time.Now().UnixMilli()`
  readings; the `World` records how many readings were consumed and how long the
  goroutine slept;
* the busy loop of `timeMills` takes a bound on its number of iterations and
  returns `none` when the bound is hit.
-/

namespace SnowflakeGen

/-! ## Two's-complement 64-bit arithmetic -/

/-- Reduction of an integer to the `int64` value with the same low 64 bits. -/
def wrap64 (x : Int) : Int := (x + 9223372036854775808) % 18446744073709551616 - 9223372036854775808

/-- Predicate for the values an `int64` can hold. -/
def isInt64 (x : Int) : Prop := -9223372036854775808 ≤ x ∧ x ≤ 9223372036854775807

instance (x : Int) : Decidable (isInt64 x) := by unfold isInt64; infer_instance

/-- The 64-bit pattern of an `int64`, read as an unsigned number. -/
def toBits (x : Int) : Nat := (x % 18446744073709551616).toNat

/-- The `int64` whose bit pattern is the low 64 bits of `n`. -/
def ofBits (n : Nat) : Int := wrap64 (n : Int)

/-- Go `a + b` on `int64`. -/
def add64 (a b : Int) : Int := wrap64 (a + b)

/-- Go `a - b` on `int64`. -/
def sub64 (a b : Int) : Int := wrap64 (a - b)

/-- Go `a & b` on `int64`. -/
def and64 (a b : Int) : Int := ofBits (toBits a &&& toBits b)

/-- Go `a | b` on `int64`. -/
def or64 (a b : Int) : Int := ofBits (toBits a ||| toBits b)

/-- Go `a ^ b` (exclusive or) on `int64`. -/
def xor64 (a b : Int) : Int := ofBits (toBits a ^^^ toBits b)

/-- Go `a << k` on `int64`: the bits shifted out at the top are lost. -/
def shl64 (a : Int) (k : Nat) : Int := ofBits (toBits a <<< k)

/-- Go `a >> k` on `int64`: the arithmetic (sign-preserving) shift. -/
def sar64 (a : Int) (k : Nat) : Int := a >>> k

/-! ## Constants and types of the package -/

/-- The Go type `Mode` is an `int8`. -/
abbrev Mode := Int

/-- Mode `Normal` (`iota` = 0): a clock rollback is an error. -/
def Normal : Mode := 0

/-- Mode `AutoTime` (1): a clock rollback is absorbed by the logical clock. -/
def AutoTime : Mode := 1

/-- Constant `NodeBits`. -/
def NodeBits : Nat := 10

/-- Constant `StepBits`. -/
def StepBits : Nat := 12

/-- The four error values of the package. -/
inductive Error where
  | ErrStartTimeAhead
  | ErrOverTimeRollback
  | ErrInvalidMachineID
  | ErrNoMode
  deriving DecidableEq, Repr

/-- A `time.Time` instant, counted in nanoseconds since the Unix epoch. -/
structure Time where
  unixNano : Int
  deriving DecidableEq, Repr

/-- Method `t.After(u)` of `time.Time`. -/
def Time.After (t u : Time) : Bool := decide (u.unixNano < t.unixNano)

/-- Method `t.UnixMilli()` of `time.Time`: whole milliseconds, as an `int64`. -/
def Time.UnixMilli (t : Time) : Int := wrap64 (t.unixNano / 1000000)

/-- The Go struct `Option` (renamed: `Option` is taken).  `NodeID` is an `int16`,
`MaxWaitTime` a `time.Duration`. -/
structure Options where
  Mode : Mode
  StartTime : Time
  NodeID : Int
  MaxWaitTime : Int
  deriving DecidableEq, Repr

/-- Predicate for the values an `int16` can hold. -/
def isInt16 (x : Int) : Prop := -32768 ≤ x ∧ x ≤ 32767

instance (x : Int) : Decidable (isInt16 x) := by unfold isInt16; infer_instance

/-- The Go struct `Snowflake`, without its mutex. -/
structure Snowflake where
  node : Int
  step : Int
  MaxStep : Int
  epoch : Int
  lastTimestamp : Int
  mode : Mode
  maxWaitTime : Int
  deriving DecidableEq, Repr

/-- Successive readings of `time.Now().UnixMilli()`. -/
abbrev Clock := Nat → Int

/-- What a call has done to the outside: clock readings consumed, time slept. -/
structure World where
  pos : Nat
  slept : Int
  deriving DecidableEq, Repr

/-! ## The functions of `snowflake.go` -/

/-- Function `NewSnowflake`; `now` is the value of `time.Now()` it reads. -/
def NewSnowflake (option : Options) (now : Time) : Except Error Snowflake :=
  if option.StartTime.After now then
    .error Error.ErrStartTimeAhead
  else if option.NodeID > (1 <<< NodeBits : Int) - 1 then
    .error Error.ErrInvalidMachineID
  else
    .ok { node := option.NodeID
          step := 0
          MaxStep := xor64 (-1) (shl64 (-1) StepBits)
          epoch := option.StartTime.UnixMilli
          lastTimestamp := 0
          mode := option.Mode
          maxWaitTime := option.MaxWaitTime }

/-- Method `getCurrentTime`: one reading, and after a reading behind
`lastTimestamp` an optional sleep and a second reading. -/
def Snowflake.getCurrentTime (s : Snowflake) (clk : Clock) (w : World) : Int × World :=
  let currentTime := clk w.pos
  if currentTime < s.lastTimestamp then
    let slept := if s.maxWaitTime > 0 then w.slept + s.maxWaitTime else w.slept
    (clk (w.pos + 1), { pos := w.pos + 2, slept := slept })
  else
    (currentTime, { w with pos := w.pos + 1 })

/-- The loop of `timeMills`: `fuel` bounds the number of iterations. -/
def timeMillsLoop (clk : Clock) (lastTime : Int) : Nat → Int → World → Option (Int × World)
  | 0, currentTime, w =>
    if currentTime ≤ lastTime then none else some (currentTime, w)
  | fuel + 1, currentTime, w =>
    if currentTime ≤ lastTime then
      timeMillsLoop clk lastTime fuel (clk w.pos) { w with pos := w.pos + 1 }
    else some (currentTime, w)

/-- Method `timeMills`: poll the clock until it reads past `lastTime`. -/
def Snowflake.timeMills (_s : Snowflake) (clk : Clock) (w : World) (lastTime : Int)
    (fuel : Nat) : Option (Int × World) :=
  timeMillsLoop clk lastTime fuel (clk w.pos) { w with pos := w.pos + 1 }

/-- The expression both policies return:
`((lastTimestamp - epoch) << (NodeBits + StepBits)) | (node << StepBits) | step`. -/
def Snowflake.compose (s : Snowflake) : Int :=
  or64 (or64 (shl64 (sub64 s.lastTimestamp s.epoch) (NodeBits + StepBits))
    (shl64 s.node StepBits)) s.step

/-- Result of one call: the pair `(int64, error)`, the generator and the world
after the call. -/
structure Outcome where
  id : Int
  err : Option Error
  post : Snowflake
  world : World
  deriving DecidableEq, Repr

/-- The two statements that end both policies:
`s.lastTimestamp = currentTime` and the return of the composed ID with a nil
error. -/
def Snowflake.issue (s : Snowflake) (currentTime : Int) (w : World) : Outcome :=
  { id := Snowflake.compose { s with lastTimestamp := currentTime }
    err := none
    post := { s with lastTimestamp := currentTime }
    world := w }

/-- Method `autoNextID`. -/
def Snowflake.autoNextID (s : Snowflake) (clk : Clock) (w : World) : Outcome :=
  let r := s.getCurrentTime clk w
  let currentTime : Int := if r.1 < s.lastTimestamp then s.lastTimestamp else r.1
  if currentTime = s.lastTimestamp then
    let step : Int := and64 (add64 s.step 1) s.MaxStep
    if step = 0 then
      Snowflake.issue { s with step := step } (add64 currentTime 1) r.2
    else
      Snowflake.issue { s with step := step } currentTime r.2
  else
    Snowflake.issue { s with step := 0 } currentTime r.2

/-- Method `normalNextID`; `none` when the busy loop of `timeMills` does not end
within `fuel` iterations. -/
def Snowflake.normalNextID (s : Snowflake) (clk : Clock) (w : World) (fuel : Nat) :
    Option Outcome :=
  let r := s.getCurrentTime clk w
  let currentTime : Int := r.1
  if currentTime < s.lastTimestamp then
    some { id := 0, err := some Error.ErrOverTimeRollback, post := s, world := r.2 }
  else if currentTime = s.lastTimestamp then
    let step : Int := and64 (add64 s.step 1) s.MaxStep
    if step = 0 then
      (Snowflake.timeMills { s with step := step } clk r.2 s.lastTimestamp fuel).map
        (fun q => Snowflake.issue { s with step := step } q.1 q.2)
    else
      some (Snowflake.issue { s with step := step } currentTime r.2)
  else
    some (Snowflake.issue { s with step := 0 } currentTime r.2)

/-- Method `GenerateID` (the mutex is not modelled). -/
def Snowflake.GenerateID (s : Snowflake) (clk : Clock) (w : World) (fuel : Nat) :
    Option Outcome :=
  if s.mode = Normal then s.normalNextID clk w fuel
  else if s.mode = AutoTime then some (s.autoNextID clk w)
  else some { id := 0, err := some Error.ErrNoMode, post := s, world := w }

/-- Method `Parse`: the triple `(time, node, seq)` and the error, which is never
assigned. -/
def Snowflake.Parse (s : Snowflake) (id : Int) : Int × Int × Int × Option Error :=
  let time := add64 (sar64 id (NodeBits + StepBits)) s.epoch
  let node := shl64 ((1 <<< NodeBits : Int) - 1) StepBits
  let node := sar64 (and64 id node) StepBits
  let seq := and64 id s.MaxStep
  (time, node, seq, none)

/-! ## Vocabulary of the statements -/

/-- The constant fields and the counter are as `NewSnowflake` and the two
policies leave them: `MaxStep = 4095`, node on 10 bits, step on 12 bits. -/
def Snowflake.fieldsOk (s : Snowflake) : Prop :=
  s.MaxStep = 4095 ∧ (0 ≤ s.node ∧ s.node ≤ 1023) ∧ (0 ≤ s.step ∧ s.step ≤ 4095)

instance (s : Snowflake) : Decidable s.fieldsOk := by
  unfold Snowflake.fieldsOk; infer_instance

/-- The offset `lastTimestamp - epoch` (as integers) fits the 41 bits of the
timestamp field. -/
def Snowflake.inEra (s : Snowflake) : Prop :=
  0 ≤ s.lastTimestamp - s.epoch ∧ s.lastTimestamp - s.epoch < 2199023255552

instance (s : Snowflake) : Decidable s.inEra := by
  unfold Snowflake.inEra; infer_instance

/-- The outcomes of `n` successive calls of `GenerateID` on one generator, in
call order; `none` when one of the calls does not return within `fuel`. -/
def calls (clk : Clock) (fuel : Nat) : Nat → Snowflake → World → Option (List Outcome)
  | 0, _, _ => some []
  | n + 1, s, w =>
    match s.GenerateID clk w fuel with
    | none => none
    | some o => (calls clk fuel n o.post o.world).map (fun tr => o :: tr)

/-- The IDs that a list of calls returned with a nil error, in call order. -/
def issued (tr : List Outcome) : List Int :=
  (tr.filter (fun o => o.err.isNone)).map (fun o => o.id)

/-- The decoding as the specification words it: `timestamp = (id >> 22) + epoch`,
`nodeId = (id >> 12) & (2^10 - 1)`, `sequence = id & (2^12 - 1)`, no error. -/
def ParseSpec (epoch id : Int) : Int × Int × Int × Option Error :=
  (add64 (sar64 id (NodeBits + StepBits)) epoch,
   and64 (sar64 id StepBits) (2 ^ NodeBits - 1),
   and64 id (2 ^ StepBits - 1),
   none)

/-! ## Sample generators and clocks -/

/-- A generator in mode `Normal` for node 1 with epoch 2023-12-01 00:00:00 UTC,
as `NewSnowflake` returns it. -/
def sampleNormal : Snowflake :=
  { node := 1, step := 0, MaxStep := 4095, epoch := 1701388800000, lastTimestamp := 0,
    mode := Normal, maxWaitTime := 0 }

/-- The same generator in mode `AutoTime`. -/
def sampleAuto : Snowflake := { sampleNormal with mode := AutoTime }

/-- A clock that starts 5 ms after that epoch, advances by 1 ms every third
reading and stops after 3000 readings. -/
def sampleClock : Clock := fun i => 1701388800005 + ((min i 3000 / 3 : Nat) : Int)

/-- The world before any call. -/
def world0 : World := { pos := 0, slept := 0 }

/-- The `Option` of the tests: node 1, start time 2023-12-01 00:00:00 UTC. -/
def sampleOption : Options :=
  { Mode := Normal, StartTime := { unixNano := 1701388800000000000 }, NodeID := 1,
    MaxWaitTime := 0 }

/-- An instant 4 ms after that start time. -/
def sampleNow : Time := { unixNano := 1701388800004000000 }

/-- An `Option` whose start time is 1950-01-01 00:00:00 UTC. -/
def oldOption : Options :=
  { sampleOption with StartTime := { unixNano := -631152000000000000 } }

/-- The sample `AutoTime` generator as the test forces it: `lastTimestamp` 1000 ms
ahead of the clock, the sequence at 4095. -/
def exhaustedAuto : Snowflake :=
  { sampleAuto with lastTimestamp := 1701388801005, step := 4095 }

/-- The sample `Normal` generator in the millisecond of the clock, the sequence
at 4095. -/
def exhaustedNormal : Snowflake :=
  { sampleNormal with lastTimestamp := 1701388800005, step := 4095 }

/-- The generator of `oldOption` in mode `AutoTime`, forced as the test does:
`lastTimestamp` 1000 ms ahead of the clock, the sequence at 4095. -/
def oldExhaustedAuto : Snowflake :=
  { exhaustedAuto with epoch := -631152000000 }

/-- An `Option` whose `NodeID` is -1. -/
def negativeOption : Options := { sampleOption with NodeID := -1 }

/-- Whether, during `n` successive calls in mode `AutoTime`, every time that
`getCurrentTime` yields is at most the `lastTimestamp` the generator has at that
call. -/
def frozen (clk : Clock) : Nat → Snowflake → World → Bool
  | 0, _, _ => true
  | n + 1, s, w =>
    decide ((s.getCurrentTime clk w).1 ≤ s.lastTimestamp) &&
      frozen clk n (s.autoNextID clk w).post (s.autoNextID clk w).world

/-- The generator after a run: the state left by its last call, the initial
state when there was no call. -/
def finalState (s : Snowflake) : List Outcome → Snowflake
  | [] => s
  | o :: tr => finalState o.post tr

/-- An `Option` whose `Mode` is 2, neither `Normal` nor `AutoTime`. -/
def oddModeOption : Options := { sampleOption with Mode := 2 }

/-- A clock that stays 1 ms before the sample epoch. -/
def earlyClock : Clock := fun _ => 1701388799999

/-- A clock that starts 2000 ms after the sample epoch and advances by 1 ms per
reading for 10 readings. -/
def lateClock : Clock := fun i => 1701388802000 + ((min i 10 : Nat) : Int)

/-! ## Arithmetic of the 64-bit operators -/

theorem wrap64_of_isInt64 {x : Int} (h : isInt64 x) : wrap64 x = x := by
  unfold isInt64 at h; unfold wrap64; omega

theorem isInt64_wrap64 (x : Int) : isInt64 (wrap64 x) := by
  unfold isInt64 wrap64; omega

theorem toBits_cast (x : Int) : ((toBits x : Nat) : Int) = x % 18446744073709551616 := by
  unfold toBits; omega

theorem nat_or_low (k q b : Nat) (hb : b < 2 ^ k) : 2 ^ k * q ||| b = 2 ^ k * q + b :=
  (Nat.mul_add_lt_is_or hb q).symm

theorem nat_and_4095 (x : Nat) : x &&& 4095 = x % 4096 :=
  Nat.and_pow_two_sub_one_eq_mod x 12

theorem nat_and_1023 (x : Nat) : x &&& 1023 = x % 1024 :=
  Nat.and_pow_two_sub_one_eq_mod x 10

theorem nat_and_mask (x : Nat) : x &&& 4190208 = x / 4096 % 1024 * 4096 := by
  have h1 : (4190208 : Nat) = (2 ^ 10 - 1) <<< 12 := by decide
  have h2 : x / 4096 % 1024 * 4096 = ((x >>> 12) % 2 ^ 10) <<< 12 := by
    rw [Nat.shiftLeft_eq, Nat.shiftRight_eq_div_pow]; norm_num
  rw [h1, h2]
  apply Nat.eq_of_testBit_eq
  intro i
  simp only [Nat.testBit_and, Nat.testBit_shiftLeft, Nat.testBit_two_pow_sub_one,
    Nat.testBit_mod_two_pow, Nat.testBit_shiftRight]
  by_cases h : 12 ≤ i
  · have : 12 + (i - 12) = i := by omega
    simp [h, this, Bool.and_comm]
  · simp [h]

theorem and64_4095 (x : Int) : and64 x 4095 = x % 4096 := by
  have h := toBits_cast x
  have h2 : toBits 4095 = 4095 := by decide
  unfold and64 ofBits wrap64
  rw [h2, nat_and_4095]
  omega

theorem and64_1023 (x : Int) : and64 x 1023 = x % 1024 := by
  have h := toBits_cast x
  have h2 : toBits 1023 = 1023 := by decide
  unfold and64 ofBits wrap64
  rw [h2, nat_and_1023]
  omega

theorem and64_mask (x : Int) : and64 x 4190208 = x / 4096 % 1024 * 4096 := by
  have h := toBits_cast x
  have h2 : toBits 4190208 = 4190208 := by decide
  unfold and64 ofBits wrap64
  rw [h2, nat_and_mask]
  omega

theorem shl64_12 (a : Int) : shl64 a 12 = wrap64 (a * 4096) := by
  have h := toBits_cast a
  unfold shl64 ofBits wrap64
  rw [Nat.shiftLeft_eq]
  push_cast
  omega

theorem shl64_22 (a : Int) : shl64 a 22 = wrap64 (a * 4194304) := by
  have h := toBits_cast a
  unfold shl64 ofBits wrap64
  rw [Nat.shiftLeft_eq]
  push_cast
  omega

theorem sar64_12 (a : Int) : sar64 a 12 = a / 4096 := by
  unfold sar64; rw [Int.shiftRight_eq_div_pow]; norm_num

theorem sar64_22 (a : Int) : sar64 a 22 = a / 4194304 := by
  unfold sar64; rw [Int.shiftRight_eq_div_pow]; norm_num

theorem or64_low12 (a b : Int) (ha : a % 4096 = 0) (hb : 0 ≤ b ∧ b < 4096) :
    or64 a b = wrap64 (a + b) := by
  have h1 := toBits_cast a
  have h2 := toBits_cast b
  have h3 : toBits a = 2 ^ 12 * (toBits a / 4096) := by omega
  have h4 : toBits b < 2 ^ 12 := by omega
  unfold or64 ofBits
  rw [h3, nat_or_low 12 _ _ h4, ← h3]
  unfold wrap64
  push_cast
  omega

theorem or64_low22 (a b : Int) (ha : a % 4194304 = 0) (hb : 0 ≤ b ∧ b < 4194304) :
    or64 a b = wrap64 (a + b) := by
  have h1 := toBits_cast a
  have h2 := toBits_cast b
  have h3 : toBits a = 2 ^ 22 * (toBits a / 4194304) := by omega
  have h4 : toBits b < 2 ^ 22 := by omega
  unfold or64 ofBits
  rw [h3, nat_or_low 22 _ _ h4, ← h3]
  unfold wrap64
  push_cast
  omega

theorem compose_eq_wrap64 (s : Snowflake) (hnode : 0 ≤ s.node ∧ s.node ≤ 1023)
    (hstep : 0 ≤ s.step ∧ s.step ≤ 4095) :
    s.compose = wrap64 ((s.lastTimestamp - s.epoch) * 4194304 + s.node * 4096 + s.step) := by
  unfold Snowflake.compose
  have hb : NodeBits + StepBits = 22 := rfl
  have hs : StepBits = 12 := rfl
  rw [hb, hs, shl64_22, shl64_12]
  have h1 : or64 (wrap64 (sub64 s.lastTimestamp s.epoch * 4194304)) (wrap64 (s.node * 4096))
      = wrap64 (wrap64 (sub64 s.lastTimestamp s.epoch * 4194304) + wrap64 (s.node * 4096)) := by
    apply or64_low22
    · unfold wrap64; omega
    · unfold wrap64; omega
  rw [h1, or64_low12]
  · unfold sub64 wrap64; omega
  · unfold sub64 wrap64; omega
  · omega

/-! ## The branches of the two policies -/

theorem timeMillsLoop_gt (clk : Clock) (T : Int) :
    ∀ (fuel : Nat) (cur : Int) (w : World) (r : Int × World),
      timeMillsLoop clk T fuel cur w = some r → T < r.1 := by
  intro fuel
  induction fuel with
  | zero =>
    intro cur w r h
    unfold timeMillsLoop at h
    split at h
    · cases h
    · cases h; simp only; omega
  | succ n ih =>
    intro cur w r h
    unfold timeMillsLoop at h
    split at h
    · exact ih _ _ _ h
    · cases h; simp only; omega

/-- AutoTime, the reading is not past `lastTimestamp` and the counter does not wrap. -/
theorem autoNextID_same (s : Snowflake) (clk : Clock) (w : World)
    (hnow : (s.getCurrentTime clk w).1 ≤ s.lastTimestamp)
    (hz : and64 (add64 s.step 1) s.MaxStep ≠ 0) :
    s.autoNextID clk w =
      Snowflake.issue { s with step := and64 (add64 s.step 1) s.MaxStep } s.lastTimestamp
        (s.getCurrentTime clk w).2 := by
  have h1 : (if (s.getCurrentTime clk w).1 < s.lastTimestamp then s.lastTimestamp
      else (s.getCurrentTime clk w).1) = s.lastTimestamp := by
    split <;> omega
  unfold Snowflake.autoNextID
  simp only [h1, if_true, hz, if_false]

/-- AutoTime, the reading is not past `lastTimestamp` and the counter wraps. -/
theorem autoNextID_wrap (s : Snowflake) (clk : Clock) (w : World)
    (hnow : (s.getCurrentTime clk w).1 ≤ s.lastTimestamp)
    (hz : and64 (add64 s.step 1) s.MaxStep = 0) :
    s.autoNextID clk w =
      Snowflake.issue { s with step := 0 } (add64 s.lastTimestamp 1)
        (s.getCurrentTime clk w).2 := by
  have h1 : (if (s.getCurrentTime clk w).1 < s.lastTimestamp then s.lastTimestamp
      else (s.getCurrentTime clk w).1) = s.lastTimestamp := by
    split <;> omega
  unfold Snowflake.autoNextID
  simp only [h1, if_true, hz]

/-- AutoTime, the reading is past `lastTimestamp`. -/
theorem autoNextID_new (s : Snowflake) (clk : Clock) (w : World)
    (hnow : s.lastTimestamp < (s.getCurrentTime clk w).1) :
    s.autoNextID clk w =
      Snowflake.issue { s with step := 0 } (s.getCurrentTime clk w).1
        (s.getCurrentTime clk w).2 := by
  have h0 : ¬ (s.getCurrentTime clk w).1 < s.lastTimestamp := by omega
  have h2 : ¬ (s.getCurrentTime clk w).1 = s.lastTimestamp := by omega
  unfold Snowflake.autoNextID
  simp only [h0, if_false, h2]

/-- Normal, the reading is behind `lastTimestamp`. -/
theorem normalNextID_rollback (s : Snowflake) (clk : Clock) (w : World) (fuel : Nat)
    (hnow : (s.getCurrentTime clk w).1 < s.lastTimestamp) :
    s.normalNextID clk w fuel =
      some { id := 0, err := some Error.ErrOverTimeRollback, post := s
             world := (s.getCurrentTime clk w).2 } := by
  unfold Snowflake.normalNextID
  simp only [hnow, if_true]

/-- Normal, the reading equals `lastTimestamp` and the counter does not wrap. -/
theorem normalNextID_same (s : Snowflake) (clk : Clock) (w : World) (fuel : Nat)
    (hnow : (s.getCurrentTime clk w).1 = s.lastTimestamp)
    (hz : and64 (add64 s.step 1) s.MaxStep ≠ 0) :
    s.normalNextID clk w fuel =
      some (Snowflake.issue { s with step := and64 (add64 s.step 1) s.MaxStep }
        s.lastTimestamp (s.getCurrentTime clk w).2) := by
  have h0 : ¬ s.lastTimestamp < s.lastTimestamp := by omega
  unfold Snowflake.normalNextID
  simp only [hnow, h0, if_false, if_true, hz]

/-- Normal, the reading equals `lastTimestamp` and the counter wraps: the result
is that of the busy loop. -/
theorem normalNextID_wrap (s : Snowflake) (clk : Clock) (w : World) (fuel : Nat)
    (hnow : (s.getCurrentTime clk w).1 = s.lastTimestamp)
    (hz : and64 (add64 s.step 1) s.MaxStep = 0) :
    s.normalNextID clk w fuel =
      (timeMillsLoop clk s.lastTimestamp fuel (clk (s.getCurrentTime clk w).2.pos)
          { (s.getCurrentTime clk w).2 with pos := (s.getCurrentTime clk w).2.pos + 1 }).map
        (fun q => Snowflake.issue { s with step := 0 } q.1 q.2) := by
  have h0 : ¬ s.lastTimestamp < s.lastTimestamp := by omega
  unfold Snowflake.normalNextID Snowflake.timeMills
  simp only [hnow, h0, if_false, if_true, hz]

/-- Normal, the reading is past `lastTimestamp`. -/
theorem normalNextID_new (s : Snowflake) (clk : Clock) (w : World) (fuel : Nat)
    (hnow : s.lastTimestamp < (s.getCurrentTime clk w).1) :
    s.normalNextID clk w fuel =
      some (Snowflake.issue { s with step := 0 } (s.getCurrentTime clk w).1
        (s.getCurrentTime clk w).2) := by
  have h0 : ¬ (s.getCurrentTime clk w).1 < s.lastTimestamp := by omega
  have h2 : ¬ (s.getCurrentTime clk w).1 = s.lastTimestamp := by omega
  unfold Snowflake.normalNextID
  simp only [h0, if_false, h2]

theorem issue_post_step (st : Snowflake) (t : Int) (w : World) :
    (Snowflake.issue st t w).post.step = st.step := rfl

theorem issue_post_lastTimestamp (st : Snowflake) (t : Int) (w : World) :
    (Snowflake.issue st t w).post.lastTimestamp = t := rfl

theorem issue_post_mode (st : Snowflake) (t : Int) (w : World) :
    (Snowflake.issue st t w).post.mode = st.mode := rfl

theorem issue_post_MaxStep (st : Snowflake) (t : Int) (w : World) :
    (Snowflake.issue st t w).post.MaxStep = st.MaxStep := rfl

theorem timeMillsLoop_reading (clk : Clock) (T : Int) :
    ∀ (fuel : Nat) (cur : Int) (w : World) (r : Int × World),
      timeMillsLoop clk T fuel cur w = some r → r.1 = cur ∨ ∃ i, r.1 = clk i := by
  intro fuel
  induction fuel with
  | zero =>
    intro cur w r h
    unfold timeMillsLoop at h
    split at h
    · cases h
    · cases h; exact Or.inl rfl
  | succ n ih =>
    intro cur w r h
    unfold timeMillsLoop at h
    split at h
    · rcases ih _ _ _ h with h1 | h1
      · exact Or.inr ⟨_, h1⟩
      · exact Or.inr h1
    · cases h; exact Or.inl rfl

theorem getCurrentTime_reading (s : Snowflake) (clk : Clock) (w : World) :
    ∃ i, (s.getCurrentTime clk w).1 = clk i := by
  unfold Snowflake.getCurrentTime
  simp only
  split
  · exact ⟨_, rfl⟩
  · exact ⟨_, rfl⟩

/-- Every call that returns either fails and leaves the generator as it was, or
issues the ID composed from the new state, in which only `step` and
`lastTimestamp` may differ: same millisecond and the counter incremented, or the
counter at 0 and a later millisecond. -/
theorem GenerateID_cases (s : Snowflake) (clk : Clock) (w : World) (fuel : Nat) (o : Outcome)
    (h : s.GenerateID clk w fuel = some o) :
    (o.err ≠ none ∧ o.id = 0 ∧ o.post = s) ∨
    (o.err = none ∧ (s.mode = Normal ∨ s.mode = AutoTime) ∧
      ∃ step L, o.post = { s with step := step, lastTimestamp := L } ∧
        o.id = Snowflake.compose { s with step := step, lastTimestamp := L } ∧
        ((L = s.lastTimestamp ∧ step = and64 (add64 s.step 1) s.MaxStep ∧ step ≠ 0) ∨
         (step = 0 ∧ ((s.lastTimestamp < L ∧ ∃ i, L = clk i) ∨
            L = add64 s.lastTimestamp 1)))) := by
  unfold Snowflake.GenerateID at h
  by_cases hN : s.mode = Normal
  · rw [if_pos hN] at h
    rcases lt_trichotomy (s.getCurrentTime clk w).1 s.lastTimestamp with hlt | heq | hgt
    · rw [normalNextID_rollback s clk w fuel hlt] at h
      obtain rfl := Option.some.inj h
      exact Or.inl ⟨by simp, rfl, rfl⟩
    · by_cases hz : and64 (add64 s.step 1) s.MaxStep = 0
      · rw [normalNextID_wrap s clk w fuel heq hz] at h
        rw [Option.map_eq_some'] at h
        obtain ⟨q, hq, rfl⟩ := h
        have h1 := timeMillsLoop_gt clk _ _ _ _ _ hq
        have h2 := timeMillsLoop_reading clk _ _ _ _ _ hq
        refine Or.inr ⟨rfl, Or.inl hN, 0, q.1, rfl, rfl, Or.inr ⟨rfl, Or.inl ⟨h1, ?_⟩⟩⟩
        rcases h2 with h2 | h2
        · exact ⟨_, h2⟩
        · exact h2
      · rw [normalNextID_same s clk w fuel heq hz] at h
        obtain rfl := Option.some.inj h
        exact Or.inr ⟨rfl, Or.inl hN, _, _, rfl, rfl, Or.inl ⟨rfl, rfl, hz⟩⟩
    · rw [normalNextID_new s clk w fuel hgt] at h
      obtain rfl := Option.some.inj h
      exact Or.inr ⟨rfl, Or.inl hN, 0, _, rfl, rfl,
        Or.inr ⟨rfl, Or.inl ⟨hgt, getCurrentTime_reading s clk w⟩⟩⟩
  · rw [if_neg hN] at h
    by_cases hA : s.mode = AutoTime
    · rw [if_pos hA] at h
      rcases le_or_lt (s.getCurrentTime clk w).1 s.lastTimestamp with hle | hgt
      · by_cases hz : and64 (add64 s.step 1) s.MaxStep = 0
        · rw [autoNextID_wrap s clk w hle hz] at h
          obtain rfl := Option.some.inj h
          exact Or.inr ⟨rfl, Or.inr hA, 0, _, rfl, rfl, Or.inr ⟨rfl, Or.inr rfl⟩⟩
        · rw [autoNextID_same s clk w hle hz] at h
          obtain rfl := Option.some.inj h
          exact Or.inr ⟨rfl, Or.inr hA, _, _, rfl, rfl, Or.inl ⟨rfl, rfl, hz⟩⟩
      · rw [autoNextID_new s clk w hgt] at h
        obtain rfl := Option.some.inj h
        exact Or.inr ⟨rfl, Or.inr hA, 0, _, rfl, rfl,
          Or.inr ⟨rfl, Or.inl ⟨hgt, getCurrentTime_reading s clk w⟩⟩⟩
    · rw [if_neg hA] at h
      obtain rfl := Option.some.inj h
      exact Or.inl ⟨by simp, rfl, rfl⟩

/-! ## Order of the issued IDs -/

theorem next_step_eq (step : Int) : and64 (add64 step 1) 4095 = (step + 1) % 4096 := by
  rw [and64_4095]; unfold add64 wrap64; omega

theorem compose_eq_sum (s : Snowflake) (hnode : 0 ≤ s.node ∧ s.node ≤ 1023)
    (hstep : 0 ≤ s.step ∧ s.step ≤ 4095) (hera : s.inEra) :
    s.compose = (s.lastTimestamp - s.epoch) * 4194304 + s.node * 4096 + s.step := by
  rw [compose_eq_wrap64 s hnode hstep]
  unfold Snowflake.inEra at hera
  unfold wrap64; omega

theorem GenerateID_fieldsOk (s : Snowflake) (clk : Clock) (w : World) (fuel : Nat) (o : Outcome)
    (h : s.GenerateID clk w fuel = some o) (hf : s.fieldsOk) : o.post.fieldsOk := by
  rcases GenerateID_cases s clk w fuel o h with ⟨_, _, hp⟩ | ⟨_, _, step, L, hp, _, hc⟩
  · rw [hp]; exact hf
  · obtain ⟨hM, hn, hs⟩ := hf
    rw [hp]
    refine ⟨hM, hn, ?_⟩
    show 0 ≤ step ∧ step ≤ 4095
    rcases hc with ⟨_, h2, _⟩ | ⟨h2, _⟩
    · rw [hM, next_step_eq] at h2; omega
    · omega

/-- With `MaxStep = 4095` the counter left by a successful call is on 12 bits,
whatever it was before. -/
theorem GenerateID_step_range (s : Snowflake) (clk : Clock) (w : World) (fuel : Nat)
    (o : Outcome) (h : s.GenerateID clk w fuel = some o) (herr : o.err = none)
    (hM : s.MaxStep = 4095) : 0 ≤ o.post.step ∧ o.post.step ≤ 4095 := by
  rcases GenerateID_cases s clk w fuel o h with ⟨he, _, _⟩ | ⟨_, _, step, L, hp, _, hc⟩
  · exact absurd herr he
  · rw [hp]
    show 0 ≤ step ∧ step ≤ 4095
    rcases hc with ⟨_, h2, _⟩ | ⟨h2, _⟩
    · rw [hM, next_step_eq] at h2; omega
    · omega

theorem GenerateID_increases (s : Snowflake) (clk : Clock) (w : World) (fuel : Nat)
    (o : Outcome) (h : s.GenerateID clk w fuel = some o) (herr : o.err = none)
    (hf : s.fieldsOk) (hs : s.inEra) (ho : o.post.inEra) : s.compose < o.id := by
  have hfo := GenerateID_fieldsOk s clk w fuel o h hf
  rcases GenerateID_cases s clk w fuel o h with ⟨he, _, _⟩ | ⟨_, _, step, L, hp, hid, hc⟩
  · exact absurd herr he
  · rw [hid, ← hp, compose_eq_sum s hf.2.1 hf.2.2 hs,
      compose_eq_sum o.post hfo.2.1 hfo.2.2 ho]
    obtain ⟨hM, hn, hst⟩ := hf
    unfold Snowflake.inEra at hs ho
    rw [hp] at ho ⊢
    simp only at ho ⊢
    rcases hc with ⟨h1, h2, h3⟩ | ⟨h2, h1 | h1⟩
    · rw [hM, next_step_eq] at h2; omega
    · omega
    · unfold add64 wrap64 at h1; omega

theorem calls_increasing (clk : Clock) (fuel : Nat) :
    ∀ (n : Nat) (s : Snowflake) (w : World) (tr : List Outcome),
      s.fieldsOk → calls clk fuel n s w = some tr →
      (∀ o ∈ tr, o.err = none → o.post.inEra) →
      (s.inEra → ∀ x ∈ issued tr, s.compose < x) ∧ List.Pairwise (fun a b => a < b) (issued tr) := by
  intro n
  induction n with
  | zero =>
    intro s w tr _ h _
    unfold calls at h
    obtain rfl := Option.some.inj h
    simp [issued]
  | succ n ih =>
    intro s w tr hf h hera
    unfold calls at h
    cases hg : s.GenerateID clk w fuel with
    | none => rw [hg] at h; cases h
    | some o =>
      rw [hg] at h
      simp only [Option.map_eq_some'] at h
      obtain ⟨rest, hrest, rfl⟩ := h
      have hfo := GenerateID_fieldsOk s clk w fuel o hg hf
      have hih := ih o.post o.world rest hfo hrest
        (fun x hx => hera x (List.mem_cons_of_mem _ hx))
      by_cases herr : o.err = none
      · have hoera := hera o (List.mem_cons_self _ _) herr
        have hiss : issued (o :: rest) = o.id :: issued rest := by
          simp [issued, List.filter_cons, herr]
        have hoid : o.id = o.post.compose := by
          rcases GenerateID_cases s clk w fuel o hg with ⟨he, _, _⟩ | ⟨_, _, step, L, hp, hid, _⟩
          · exact absurd herr he
          · rw [hid, hp]
        rw [hiss]
        refine ⟨?_, ?_⟩
        · intro hs x hx
          have h1 := GenerateID_increases s clk w fuel o hg herr hf hs hoera
          rcases List.mem_cons.1 hx with rfl | hx
          · exact h1
          · have h2 := hih.1 hoera x hx
            rw [← hoid] at h2
            omega
        · refine List.Pairwise.cons ?_ hih.2
          intro x hx
          have h2 := hih.1 hoera x hx
          rw [← hoid] at h2
          exact h2
      · have hiss : issued (o :: rest) = issued rest := by
          simp [issued, List.filter_cons, herr]
        have hpost : o.post = s := by
          rcases GenerateID_cases s clk w fuel o hg with ⟨_, _, hp⟩ | ⟨he, _⟩
          · exact hp
          · exact absurd he herr
        rw [hiss]
        rw [hpost] at hih
        exact hih

/-! ## Decoding -/

theorem nodeMask_eq : shl64 ((1 <<< NodeBits : Int) - 1) StepBits = 4190208 := by decide

theorem Parse_eq (s : Snowflake) (id : Int) (hM : s.MaxStep = 4095) :
    s.Parse id = (wrap64 (id / 4194304 + s.epoch), id / 4096 % 1024, id % 4096, none) := by
  have hb : NodeBits + StepBits = 22 := rfl
  have hs : StepBits = 12 := rfl
  unfold Snowflake.Parse
  simp only [nodeMask_eq, hM]
  rw [hb, hs, sar64_22, sar64_12, and64_mask, and64_4095]
  unfold add64
  have h : id / 4096 % 1024 * 4096 / 4096 = id / 4096 % 1024 := by omega
  rw [h]

theorem ParseSpec_eq (epoch id : Int) :
    ParseSpec epoch id = (wrap64 (id / 4194304 + epoch), id / 4096 % 1024, id % 4096, none) := by
  have hb : NodeBits + StepBits = 22 := rfl
  have hs : StepBits = 12 := rfl
  have h1 : (2 : Int) ^ NodeBits - 1 = 1023 := by decide
  have h2 : (2 : Int) ^ StepBits - 1 = 4095 := by decide
  unfold ParseSpec
  rw [h1, h2, hb, hs, sar64_22, sar64_12, and64_1023, and64_4095]
  unfold add64
  rfl

/-- Decoding of a composed ID whose fields are in range; the offset may be
negative, down to `-2^41`. -/
theorem Parse_compose (s : Snowflake) (hf : s.fieldsOk) (hL : isInt64 s.lastTimestamp)
    (hlo : -2199023255552 ≤ s.lastTimestamp - s.epoch)
    (hhi : s.lastTimestamp - s.epoch < 2199023255552) :
    s.Parse s.compose = (s.lastTimestamp, s.node, s.step, none) := by
  obtain ⟨hM, hn, hs⟩ := hf
  rw [Parse_eq s _ hM, compose_eq_wrap64 s hn hs]
  unfold isInt64 at hL
  have e1 : wrap64 ((s.lastTimestamp - s.epoch) * 4194304 + s.node * 4096 + s.step)
      = (s.lastTimestamp - s.epoch) * 4194304 + s.node * 4096 + s.step := by
    unfold wrap64; omega
  rw [e1]
  have e2 : wrap64 (((s.lastTimestamp - s.epoch) * 4194304 + s.node * 4096 + s.step) / 4194304
      + s.epoch) = s.lastTimestamp := by
    unfold wrap64; omega
  have e3 : ((s.lastTimestamp - s.epoch) * 4194304 + s.node * 4096 + s.step) / 4096 % 1024
      = s.node := by omega
  have e4 : ((s.lastTimestamp - s.epoch) * 4194304 + s.node * 4096 + s.step) % 4096
      = s.step := by omega
  rw [e2, e3, e4]

/-- The node and sequence fields decode for every timestamp and epoch. -/
theorem Parse_compose_low (s : Snowflake) (hf : s.fieldsOk) :
    (s.Parse s.compose).2.1 = s.node ∧ (s.Parse s.compose).2.2.1 = s.step := by
  obtain ⟨hM, hn, hs⟩ := hf
  rw [Parse_eq s _ hM, compose_eq_wrap64 s hn hs]
  simp only
  unfold wrap64
  constructor <;> omega

theorem GenerateID_isInt64 (s : Snowflake) (clk : Clock) (w : World) (fuel : Nat) (o : Outcome)
    (h : s.GenerateID clk w fuel = some o) (hclk : ∀ i, isInt64 (clk i))
    (hL : isInt64 s.lastTimestamp) : isInt64 o.post.lastTimestamp := by
  rcases GenerateID_cases s clk w fuel o h with ⟨_, _, hp⟩ | ⟨_, _, step, L, hp, _, hc⟩
  · rw [hp]; exact hL
  · rw [hp]
    show isInt64 L
    rcases hc with ⟨h1, _⟩ | ⟨_, ⟨_, i, h1⟩ | h1⟩
    · rw [h1]; exact hL
    · rw [h1]; exact hclk i
    · rw [h1]; exact isInt64_wrap64 _

/-- What a successful call returns and leaves: the composed ID of the new state,
and the constant fields untouched. -/
theorem GenerateID_ok (s : Snowflake) (clk : Clock) (w : World) (fuel : Nat) (o : Outcome)
    (h : s.GenerateID clk w fuel = some o) (herr : o.err = none) :
    o.id = o.post.compose ∧ o.post.node = s.node ∧ o.post.epoch = s.epoch ∧
      o.post.MaxStep = s.MaxStep ∧ o.post.mode = s.mode ∧
      o.post.maxWaitTime = s.maxWaitTime := by
  rcases GenerateID_cases s clk w fuel o h with ⟨he, _, _⟩ | ⟨_, _, step, L, hp, hid, _⟩
  · exact absurd herr he
  · rw [hid, hp]; exact ⟨rfl, rfl, rfl, rfl, rfl, rfl⟩

theorem Parse_congr (s t : Snowflake) (id : Int) (he : t.epoch = s.epoch)
    (hM : t.MaxStep = s.MaxStep) : t.Parse id = s.Parse id := by
  unfold Snowflake.Parse; rw [he, hM]

/-! ## Construction and runs -/

theorem maxStep_eq : xor64 (-1) (shl64 (-1) StepBits) = 4095 := by decide

theorem maxNode_eq : (1 <<< NodeBits : Int) - 1 = 1023 := by decide

/-- What an accepted `Option` satisfies and the generator built from it. -/
theorem NewSnowflake_ok (option : Options) (now : Time) (g : Snowflake)
    (h : NewSnowflake option now = Except.ok g) :
    option.StartTime.After now = false ∧ option.NodeID ≤ 1023 ∧
    g = { node := option.NodeID, step := 0, MaxStep := 4095,
          epoch := option.StartTime.UnixMilli, lastTimestamp := 0, mode := option.Mode,
          maxWaitTime := option.MaxWaitTime } := by
  unfold NewSnowflake at h
  rw [maxNode_eq, maxStep_eq] at h
  split at h
  · cases h
  · rename_i h1
    split at h
    · cases h
    · rename_i h2
      injection h with h
      exact ⟨by simpa using h1, by omega, h.symm⟩

/-- Every outcome of a run comes from a call made in a state that satisfies any
property the calls preserve. -/
theorem calls_mem (clk : Clock) (fuel : Nat) (P : Snowflake → Prop)
    (hP : ∀ s w o, P s → s.GenerateID clk w fuel = some o → P o.post) :
    ∀ (n : Nat) (s : Snowflake) (w : World) (tr : List Outcome),
      P s → calls clk fuel n s w = some tr →
      ∀ o ∈ tr, ∃ s1 w1, P s1 ∧ s1.GenerateID clk w1 fuel = some o := by
  intro n
  induction n with
  | zero =>
    intro s w tr _ h o ho
    unfold calls at h
    obtain rfl := Option.some.inj h
    cases ho
  | succ n ih =>
    intro s w tr hs h o ho
    unfold calls at h
    cases hg : s.GenerateID clk w fuel with
    | none => rw [hg] at h; cases h
    | some o1 =>
      rw [hg] at h
      simp only [Option.map_eq_some'] at h
      obtain ⟨rest, hrest, rfl⟩ := h
      rcases List.mem_cons.1 ho with rfl | ho
      · exact ⟨s, w, hs, hg⟩
      · exact ih o1.post o1.world rest (hP s w o1 hs hg) hrest o ho

/-! ## Low bits and the busy loop -/

theorem nat_or_mod_4096 (x y : Nat) (hx : x % 4096 = 0) (hy : y % 4096 = 0) :
    (x ||| y) % 4096 = 0 := by
  rw [← nat_and_4095, Nat.and_distrib_right, nat_and_4095, nat_and_4095, hx, hy]
  rfl

theorem or64_mod_4096 (a b : Int) (ha : a % 4096 = 0) (hb : b % 4096 = 0) :
    or64 a b % 4096 = 0 := by
  have h1 := toBits_cast a
  have h2 := toBits_cast b
  have h3 := nat_or_mod_4096 (toBits a) (toBits b) (by omega) (by omega)
  clear h1 h2 ha hb
  unfold or64 ofBits wrap64
  omega

/-- With the counter at 0 the low 12 bits of the composed ID are 0, whatever the
other fields. -/
theorem compose_mod_4096 (s : Snowflake) (h : s.step = 0) : s.compose % 4096 = 0 := by
  have hb : NodeBits + StepBits = 22 := rfl
  have hs : StepBits = 12 := rfl
  unfold Snowflake.compose
  rw [hb, hs, shl64_22, shl64_12, h]
  have h1 : or64 (wrap64 (sub64 s.lastTimestamp s.epoch * 4194304)) (wrap64 (s.node * 4096))
      % 4096 = 0 := by
    apply or64_mod_4096
    · unfold wrap64; omega
    · unfold wrap64; omega
  rw [or64_low12 _ 0 h1 (by omega)]
  generalize or64 (wrap64 (sub64 s.lastTimestamp s.epoch * 4194304)) (wrap64 (s.node * 4096))
    = x at h1
  unfold wrap64; omega

/-- The busy loop returns the first sample past `T`, when the bound allows the
`k` iterations this takes. -/
theorem timeMillsLoop_first (clk : Clock) (T : Int) (slept : Int) :
    ∀ (k fuel p : Nat), (∀ j, j < k → clk (p + j) ≤ T) → T < clk (p + k) → k ≤ fuel →
      timeMillsLoop clk T fuel (clk p) { pos := p + 1, slept := slept }
        = some (clk (p + k), { pos := p + k + 1, slept := slept }) := by
  intro k
  induction k with
  | zero =>
    intro fuel p _ hgt _
    have hn : ¬ clk p ≤ T := by
      have := hgt; rw [Nat.add_zero] at this; omega
    cases fuel with
    | zero => unfold timeMillsLoop; rw [if_neg hn]; rfl
    | succ f => unfold timeMillsLoop; rw [if_neg hn]; rfl
  | succ k ih =>
    intro fuel p hle hgt hk
    have h0 : clk p ≤ T := by
      have := hle 0 (by omega); rwa [Nat.add_zero] at this
    cases fuel with
    | zero => omega
    | succ f =>
      unfold timeMillsLoop
      rw [if_pos h0]
      have h1 := ih f (p + 1)
        (fun j hj => by have := hle (j + 1) (by omega); rwa [show p + (j + 1) = p + 1 + j by omega] at this)
        (by rwa [show p + (k + 1) = p + 1 + k by omega] at hgt) (by omega)
      rw [show p + (k + 1) = p + 1 + k by omega]
      exact h1

/-- The busy loop does not return within fewer iterations. -/
theorem timeMillsLoop_short (clk : Clock) (T : Int) (slept : Int) :
    ∀ (fuel k p : Nat), (∀ j, j < k → clk (p + j) ≤ T) → fuel < k →
      timeMillsLoop clk T fuel (clk p) { pos := p + 1, slept := slept } = none := by
  intro fuel
  induction fuel with
  | zero =>
    intro k p hle hk
    have h0 : clk p ≤ T := by
      have := hle 0 (by omega); rwa [Nat.add_zero] at this
    unfold timeMillsLoop; rw [if_pos h0]
  | succ f ih =>
    intro k p hle hk
    have h0 : clk p ≤ T := by
      have := hle 0 (by omega); rwa [Nat.add_zero] at this
    unfold timeMillsLoop
    rw [if_pos h0]
    exact ih (k - 1) (p + 1)
      (fun j hj => by have := hle (j + 1) (by omega); rwa [show p + (j + 1) = p + 1 + j by omega] at this)
      (by omega)

/-! ## Lower bound of the timestamp -/

/-- A call that issues an ID on a clock that never reads before the epoch leaves
`lastTimestamp` at or after the epoch, when the era of `2^41` ms from the epoch
lies within `int64` and `lastTimestamp` was 0 or within that era before. -/
theorem GenerateID_lower (s : Snowflake) (clk : Clock) (w : World) (fuel : Nat) (o : Outcome)
    (h : s.GenerateID clk w fuel = some o) (herr : o.err = none)
    (hclk : ∀ i, s.epoch ≤ clk i)
    (he : -9223372036854775808 ≤ s.epoch)
    (hc : s.epoch + 2199023255552 ≤ 9223372036854775807)
    (hprev : s.lastTimestamp = 0 ∨ s.lastTimestamp - s.epoch < 2199023255552) :
    s.epoch ≤ o.post.lastTimestamp := by
  obtain ⟨i, hi⟩ := getCurrentTime_reading s clk w
  have hnow : s.epoch ≤ (s.getCurrentTime clk w).1 := by rw [hi]; exact hclk i
  unfold Snowflake.GenerateID at h
  by_cases hN : s.mode = Normal
  · rw [if_pos hN] at h
    rcases lt_trichotomy (s.getCurrentTime clk w).1 s.lastTimestamp with hlt | heq | hgt
    · rw [normalNextID_rollback s clk w fuel hlt] at h
      obtain rfl := Option.some.inj h
      cases herr
    · by_cases hz : and64 (add64 s.step 1) s.MaxStep = 0
      · rw [normalNextID_wrap s clk w fuel heq hz, Option.map_eq_some'] at h
        obtain ⟨q, hq, rfl⟩ := h
        rw [issue_post_lastTimestamp]
        rcases timeMillsLoop_reading clk _ _ _ _ _ hq with h2 | ⟨j, h2⟩
        · rw [h2]; exact hclk _
        · rw [h2]; exact hclk j
      · rw [normalNextID_same s clk w fuel heq hz] at h
        obtain rfl := Option.some.inj h
        rw [issue_post_lastTimestamp]
        omega
    · rw [normalNextID_new s clk w fuel hgt] at h
      obtain rfl := Option.some.inj h
      rw [issue_post_lastTimestamp]
      exact hnow
  · rw [if_neg hN] at h
    by_cases hA : s.mode = AutoTime
    · rw [if_pos hA] at h
      rcases le_or_lt (s.getCurrentTime clk w).1 s.lastTimestamp with hle | hgt
      · by_cases hz : and64 (add64 s.step 1) s.MaxStep = 0
        · rw [autoNextID_wrap s clk w hle hz] at h
          obtain rfl := Option.some.inj h
          rw [issue_post_lastTimestamp]
          clear hz hi
          unfold add64 wrap64
          omega
        · rw [autoNextID_same s clk w hle hz] at h
          obtain rfl := Option.some.inj h
          rw [issue_post_lastTimestamp]
          omega
      · rw [autoNextID_new s clk w hgt] at h
        obtain rfl := Option.some.inj h
        rw [issue_post_lastTimestamp]
        exact hnow
    · rw [if_neg hA] at h
      obtain rfl := Option.some.inj h
      cases herr

theorem GenerateID_epoch (s : Snowflake) (clk : Clock) (w : World) (fuel : Nat) (o : Outcome)
    (h : s.GenerateID clk w fuel = some o) : o.post.epoch = s.epoch := by
  rcases GenerateID_cases s clk w fuel o h with ⟨_, _, hp⟩ | ⟨_, _, _, _, hp, _⟩
  · rw [hp]
  · rw [hp]

/-- In a run on a clock that never reads before the epoch `e`, every call that
issues an ID leaves `lastTimestamp` at or after `e`, as long as the issued
offsets stay below `2^41`. -/
theorem calls_lower (clk : Clock) (fuel : Nat) (e : Int) (hclk : ∀ i, e ≤ clk i)
    (he : -9223372036854775808 ≤ e) (hc : e + 2199023255552 ≤ 9223372036854775807) :
    ∀ (n : Nat) (s : Snowflake) (w : World) (tr : List Outcome),
      s.epoch = e → (s.lastTimestamp = 0 ∨ s.lastTimestamp - e < 2199023255552) →
      calls clk fuel n s w = some tr →
      (∀ x ∈ tr, x.err = none → x.post.lastTimestamp - e < 2199023255552) →
      ∀ o ∈ tr, o.err = none → e ≤ o.post.lastTimestamp := by
  intro n
  induction n with
  | zero =>
    intro s w tr _ _ h _ o ho
    unfold calls at h
    obtain rfl := Option.some.inj h
    exact absurd ho (List.not_mem_nil o)
  | succ n ih =>
    intro s w tr hse hprev h hup o ho herr
    unfold calls at h
    cases hg : s.GenerateID clk w fuel with
    | none => rw [hg] at h; cases h
    | some o1 =>
      rw [hg] at h
      simp only [Option.map_eq_some'] at h
      obtain ⟨rest, hrest, rfl⟩ := h
      rcases List.mem_cons.1 ho with rfl | ho
      · have := GenerateID_lower s clk w fuel o hg herr (by rw [hse]; exact hclk)
          (by rw [hse]; exact he) (by rw [hse]; exact hc) (by rw [hse]; exact hprev)
        rw [hse] at this
        exact this
      · have hpe : o1.post.epoch = e := (GenerateID_epoch s clk w fuel o1 hg).trans hse
        have hpp : o1.post.lastTimestamp = 0 ∨ o1.post.lastTimestamp - e < 2199023255552 := by
          by_cases h1 : o1.err = none
          · exact Or.inr (hup o1 (List.mem_cons_self _ _) h1)
          · rcases GenerateID_cases s clk w fuel o1 hg with ⟨_, _, hp⟩ | ⟨h2, _⟩
            · rw [hp]; exact hprev
            · exact absurd h2 h1
        exact ih o1.post o1.world rest hpe hpp hrest
          (fun x hx => hup x (List.mem_cons_of_mem _ hx)) o ho herr

/-! ## The claims -/

/-- C1 (strict monotonicity, I1): in a run of successive `GenerateID` calls on a
generator with `MaxStep = 4095`, node in `[0,1023]` and sequence in `[0,4095]`,
in any mode and for any clock, if `0 ≤ lastTimestamp - epoch < 2^41` holds after
every call that issues an ID, then the IDs returned without error are strictly
increasing in call order. -/
theorem strict_monotonicity (clk : Clock) (fuel n : Nat) (s : Snowflake) (w : World)
    (tr : List Outcome) (hfields : s.fieldsOk)
    (hrun : calls clk fuel n s w = some tr)
    (hera : ∀ o ∈ tr, o.err = none → o.post.inEra) :
    List.Pairwise (fun a b => a < b) (issued tr) :=
  (calls_increasing clk fuel n s w tr hfields hrun hera).2

/-- Witness of C1: four calls in mode `Normal` on the sample clock issue four
increasing IDs. -/
theorem strict_monotonicity_witness :
    issued ((calls sampleClock 0 4 sampleNormal world0).getD [])
      = [20975616, 20975617, 20975618, 25169920] ∧
    List.Pairwise (fun a b => a < b)
      (issued ((calls sampleClock 0 4 sampleNormal world0).getD [])) :=
  ⟨by decide,
   strict_monotonicity sampleClock 0 4 sampleNormal world0 _ (by decide) (by decide)
     (by decide)⟩

/-- C2 (round trip): on a generator with `MaxStep = 4095`, for every epoch, node
in `[0,1023]`, sequence in `[0,4095]` and `int64` timestamp with
`0 ≤ ts - epoch < 2^41`, `Parse` of the composed ID returns `(ts, node, sequence)`
and a nil error; and `Parse` of an ID that `GenerateID` returns without error
(for `int64` clock readings, the post-call offset in that range) returns the
post-call `lastTimestamp`, the configured node and the post-call sequence. -/
theorem parse_round_trip :
    (∀ s : Snowflake, s.fieldsOk → isInt64 s.lastTimestamp → s.inEra →
      s.Parse s.compose = (s.lastTimestamp, s.node, s.step, none)) ∧
    (∀ (s : Snowflake) (clk : Clock) (w : World) (fuel : Nat) (o : Outcome),
      s.fieldsOk → (∀ i, isInt64 (clk i)) → isInt64 s.lastTimestamp →
      s.GenerateID clk w fuel = some o → o.err = none → o.post.inEra →
      s.Parse o.id = (o.post.lastTimestamp, s.node, o.post.step, none)) := by
  constructor
  · intro s hf hL hera
    unfold Snowflake.inEra at hera
    exact Parse_compose s hf hL (by omega) hera.2
  · intro s clk w fuel o hf hclk hL h herr hera
    have hfo := GenerateID_fieldsOk s clk w fuel o h hf
    have hLo := GenerateID_isInt64 s clk w fuel o h hclk hL
    obtain ⟨hid, hn, he, hM, _, _⟩ := GenerateID_ok s clk w fuel o h herr
    unfold Snowflake.inEra at hera
    rw [← Parse_congr s o.post o.id he hM, hid, Parse_compose o.post hfo hLo (by omega) hera.2, hn]

/-- Witness of C2: a state of the sample `AutoTime` generator decodes to its own
fields, and so does the ID of its first call. -/
theorem parse_round_trip_witness :
    (Snowflake.Parse { sampleAuto with lastTimestamp := 1701388800005, step := 7 }
        (Snowflake.compose { sampleAuto with lastTimestamp := 1701388800005, step := 7 })
      = (1701388800005, 1, 7, none)) ∧
    sampleAuto.Parse (Snowflake.issue sampleAuto 1701388800005 { pos := 1, slept := 0 }).id
      = (1701388800005, 1, 0, none) :=
  ⟨parse_round_trip.1 { sampleAuto with lastTimestamp := 1701388800005, step := 7 }
      (by decide) (by decide) (by decide),
   parse_round_trip.2 sampleAuto sampleClock world0 0
      (Snowflake.issue sampleAuto 1701388800005 { pos := 1, slept := 0 }) (by decide)
      (fun i => by unfold sampleClock isInt64; omega) (by decide) (by decide) rfl (by decide)⟩

/-- C3 (range validity), amended: for a generator that `NewSnowflake` returns
from an `Option` whose `NodeID` is not negative, every ID that one of its
`GenerateID` calls returns without error decodes with `Parse` to the configured
`NodeID` and to a sequence in `[0,4095]`; when moreover no clock reading is
before the start time (in Unix milliseconds), the start time plus `2^41` ms is
an `int64` and `lastTimestamp - epoch < 2^41` after every call of the run that
issued an ID, the decoded timestamp is the `lastTimestamp` left by the call and
is at least the start time. -/
theorem range_validity_amended (option : Options) (now : Time) (g : Snowflake)
    (clk : Clock) (fuel n : Nat) (w : World) (tr : List Outcome) (o : Outcome)
    (hnew : NewSnowflake option now = Except.ok g) (hnode : 0 ≤ option.NodeID)
    (hrun : calls clk fuel n g w = some tr) (ho : o ∈ tr) (herr : o.err = none) :
    (g.Parse o.id).2.1 = option.NodeID ∧
    (0 ≤ (g.Parse o.id).2.2.1 ∧ (g.Parse o.id).2.2.1 ≤ 4095) ∧
    ((∀ i, option.StartTime.UnixMilli ≤ clk i) →
      isInt64 (option.StartTime.UnixMilli + 2199023255552) →
      (∀ x ∈ tr, x.err = none →
        x.post.lastTimestamp - option.StartTime.UnixMilli < 2199023255552) →
      (g.Parse o.id).1 = o.post.lastTimestamp ∧
        option.StartTime.UnixMilli ≤ (g.Parse o.id).1) := by
  obtain ⟨_, hle, hg⟩ := NewSnowflake_ok option now g hnew
  have hgn : g.node = option.NodeID := by rw [hg]
  have hge : g.epoch = option.StartTime.UnixMilli := by rw [hg]
  have hgM : g.MaxStep = 4095 := by rw [hg]
  have hgf : g.fieldsOk := by
    rw [hg]; exact ⟨rfl, ⟨hnode, hle⟩, ⟨le_refl _, by show (0 : Int) ≤ 4095; omega⟩⟩
  have hgL : g.lastTimestamp = 0 := by rw [hg]
  obtain ⟨s1, w1, ⟨hf1, hn1, he1⟩, hcall⟩ :=
    calls_mem clk fuel
      (fun s => s.fieldsOk ∧ s.node = g.node ∧ s.epoch = g.epoch)
      (fun s w o hs hcall => by
        obtain ⟨hf, hn, he⟩ := hs
        refine ⟨GenerateID_fieldsOk s clk w fuel o hcall hf, ?_,
          (GenerateID_epoch s clk w fuel o hcall).trans he⟩
        rcases GenerateID_cases s clk w fuel o hcall with ⟨_, _, hp⟩ | ⟨_, _, _, _, hp, _⟩
        · rw [hp]; exact hn
        · rw [hp]; exact hn)
      n g w tr ⟨hgf, rfl, rfl⟩ hrun o ho
  have hfo := GenerateID_fieldsOk s1 clk w1 fuel o hcall hf1
  obtain ⟨hid, hn, he, hM, _, _⟩ := GenerateID_ok s1 clk w1 fuel o hcall herr
  have hpc : g.Parse o.id = o.post.Parse o.id :=
    (Parse_congr g o.post o.id (by rw [he, he1]) (by rw [hfo.1, hgM])).symm
  have hlow := Parse_compose_low o.post hfo
  have hoe : o.post.epoch = option.StartTime.UnixMilli := by rw [he, he1, hge]
  rw [hpc, hid]
  refine ⟨by rw [hlow.1, hn, hn1, hgn], by rw [hlow.2]; exact hfo.2.2, ?_⟩
  intro hclk hc hup
  have hemin : -9223372036854775808 ≤ option.StartTime.UnixMilli :=
    (isInt64_wrap64 _).1
  have hlo := calls_lower clk fuel option.StartTime.UnixMilli hclk hemin hc.2 n g w tr hge
    (Or.inl hgL) hrun hup o ho herr
  have hhi := hup o ho herr
  have hLo : isInt64 o.post.lastTimestamp := by
    have hc2 := hc.2
    unfold isInt64; constructor <;> omega
  rw [Parse_compose o.post hfo hLo (by rw [hoe]; omega) (by rw [hoe]; exact hhi)]
  exact ⟨rfl, hlo⟩

/-- Witness of C3 (amended): the second of two calls on the generator built from
the sample `Option`, on the sample clock, which starts 5 ms after the start
time. -/
theorem range_validity_amended_witness :
    (sampleNormal.Parse 20975617).2.1 = 1 ∧
    (0 ≤ (sampleNormal.Parse 20975617).2.2.1 ∧ (sampleNormal.Parse 20975617).2.2.1 ≤ 4095) ∧
    (sampleNormal.Parse 20975617).1 = 1701388800005 ∧
    sampleOption.StartTime.UnixMilli ≤ (sampleNormal.Parse 20975617).1 :=
  have h := range_validity_amended sampleOption sampleNow sampleNormal sampleClock 0 2 world0
    ((calls sampleClock 0 2 sampleNormal world0).getD [])
    (Snowflake.issue { sampleNormal with step := 1 } 1701388800005 { pos := 2, slept := 0 })
    rfl (by decide) (by decide) (by decide) rfl
  have e : sampleOption.StartTime.UnixMilli = 1701388800000 := by decide
  ⟨h.1, h.2.1,
    h.2.2 (fun i => by rw [e]; unfold sampleClock; omega) (by decide) (by decide)⟩

/-- Counterexamples to C3 as stated. First, `NewSnowflake` accepts a start time
in 1950; the first ID generated in 2023 overflows the 41-bit timestamp field and
decodes to a timestamp before the start time. Second, the generator of the
sample `Option`, built 4 ms after its start time, reads a clock that is 1 ms
before the start time: the ID it issues decodes to that reading. -/
theorem range_validity_counterexample :
    (NewSnowflake oldOption sampleNow
        = Except.ok { sampleNormal with epoch := -631152000000 } ∧
      (Snowflake.GenerateID { sampleNormal with epoch := -631152000000 } sampleClock
        world0 0).map (fun o => (o.id, o.err)) = some (-8663358866085376000, none) ∧
      Snowflake.Parse { sampleNormal with epoch := -631152000000 } (-8663358866085376000)
        = (-2696657711099, 1, 0, none) ∧
      ¬ (oldOption.StartTime.UnixMilli ≤ -2696657711099)) ∧
    (NewSnowflake sampleOption sampleNow = Except.ok sampleNormal ∧
      (sampleNormal.GenerateID earlyClock world0 0).map (fun o => (o.id, o.err))
        = some (-4190208, none) ∧
      sampleNormal.Parse (-4190208) = (1701388799999, 1, 0, none) ∧
      ¬ (sampleOption.StartTime.UnixMilli ≤ 1701388799999)) :=
  ⟨⟨rfl, by decide, by decide, by decide⟩, ⟨rfl, by decide, by decide, by decide⟩⟩

/-- C4 (node validation), the failing input: `NewSnowflake` accepts the `int16`
node -1 (only `NodeID > 1023` is rejected); the generator it returns issues the
ID -4096, which `Parse` decodes to node 1023 and a timestamp before the epoch. -/
theorem node_validation_negative_accepted :
    isInt16 negativeOption.NodeID ∧
    negativeOption.StartTime.After sampleNow = false ∧
    NewSnowflake negativeOption sampleNow = Except.ok { sampleNormal with node := -1 } ∧
    (Snowflake.GenerateID { sampleNormal with node := -1 } sampleClock world0 0).map
      (fun o => (o.id, o.err)) = some (-4096, none) ∧
    Snowflake.Parse { sampleNormal with node := -1 } (-4096)
      = (1701388799999, 1023, 0, none) :=
  ⟨by decide, by decide, rfl, by decide, by decide⟩

/-- C5 (Normal-mode rollback rejection): in mode `Normal`, for every state, clock
and bound on the busy loop, `GenerateID` returns `ErrOverTimeRollback` with ID 0
exactly when the time produced by `getCurrentTime` is below `lastTimestamp`, and
then the generator is left exactly as it was. -/
theorem normal_rollback_rejection (s : Snowflake) (clk : Clock) (w : World) (fuel : Nat)
    (hmode : s.mode = Normal) :
    ((∃ o, s.GenerateID clk w fuel = some o ∧ o.err = some Error.ErrOverTimeRollback) ↔
      (s.getCurrentTime clk w).1 < s.lastTimestamp) ∧
    ((s.getCurrentTime clk w).1 < s.lastTimestamp →
      s.GenerateID clk w fuel =
        some { id := 0, err := some Error.ErrOverTimeRollback, post := s,
               world := (s.getCurrentTime clk w).2 }) := by
  have hG : s.GenerateID clk w fuel = s.normalNextID clk w fuel := by
    unfold Snowflake.GenerateID; rw [if_pos hmode]
  have hroll : (s.getCurrentTime clk w).1 < s.lastTimestamp →
      s.GenerateID clk w fuel =
        some { id := 0, err := some Error.ErrOverTimeRollback, post := s,
               world := (s.getCurrentTime clk w).2 } := by
    intro hlt
    rw [hG, normalNextID_rollback s clk w fuel hlt]
  refine ⟨⟨?_, fun hlt => ⟨_, hroll hlt, rfl⟩⟩, hroll⟩
  rintro ⟨o, ho, herr⟩
  by_contra hnlt
  rcases GenerateID_cases s clk w fuel o ho with ⟨_, _, _⟩ | ⟨he, _⟩
  · rw [hG] at ho
    rcases lt_trichotomy (s.getCurrentTime clk w).1 s.lastTimestamp with hlt | heq | hgt
    · exact hnlt hlt
    · by_cases hz : and64 (add64 s.step 1) s.MaxStep = 0
      · rw [normalNextID_wrap s clk w fuel heq hz, Option.map_eq_some'] at ho
        obtain ⟨q, _, rfl⟩ := ho
        cases herr
      · rw [normalNextID_same s clk w fuel heq hz] at ho
        obtain rfl := Option.some.inj ho
        cases herr
    · rw [normalNextID_new s clk w fuel hgt] at ho
      obtain rfl := Option.some.inj ho
      cases herr
  · rw [he] at herr; cases herr

/-- Witness of C5: the sample generator with `lastTimestamp` set 1000 ms ahead of
the clock. -/
theorem normal_rollback_rejection_witness :
    Snowflake.GenerateID { sampleNormal with lastTimestamp := 1701388801005 } sampleClock
        world0 0 =
      some { id := 0, err := some Error.ErrOverTimeRollback,
             post := { sampleNormal with lastTimestamp := 1701388801005 },
             world := { pos := 2, slept := 0 } } :=
  (normal_rollback_rejection { sampleNormal with lastTimestamp := 1701388801005 } sampleClock
    world0 0 rfl).2 (by decide)

/-- C6 (AutoTime sequence exhaustion), amended: in mode `AutoTime`, from a state
with `MaxStep = 4095`, sequence 4095 and `lastTimestamp = T` with `T + 1` an
`int64`, when `getCurrentTime` yields at most `T`, `GenerateID` succeeds with no
further clock reading, leaves `lastTimestamp = T + 1` and sequence 0, and
returns an ID whose sequence decodes to 0; when moreover the node is in
`[0,1023]` and `-2^41 ≤ T + 1 - epoch < 2^41`, its timestamp decodes to
`T + 1`. -/
theorem auto_exhaustion_amended (s : Snowflake) (clk : Clock) (w : World) (fuel : Nat)
    (hmode : s.mode = AutoTime) (hmax : s.MaxStep = 4095) (hstep : s.step = 4095)
    (hnow : (s.getCurrentTime clk w).1 ≤ s.lastTimestamp)
    (hT : isInt64 (s.lastTimestamp + 1)) :
    s.GenerateID clk w fuel = some
      { id := Snowflake.compose { s with step := 0, lastTimestamp := s.lastTimestamp + 1 }
        err := none
        post := { s with step := 0, lastTimestamp := s.lastTimestamp + 1 }
        world := (s.getCurrentTime clk w).2 } ∧
    (s.Parse (Snowflake.compose
      { s with step := 0, lastTimestamp := s.lastTimestamp + 1 })).2.2.1 = 0 ∧
    ((0 ≤ s.node ∧ s.node ≤ 1023) → -2199023255552 ≤ s.lastTimestamp + 1 - s.epoch →
      s.lastTimestamp + 1 - s.epoch < 2199023255552 →
      (s.Parse (Snowflake.compose
        { s with step := 0, lastTimestamp := s.lastTimestamp + 1 })).1
        = s.lastTimestamp + 1) := by
  have hG : s.GenerateID clk w fuel = some (s.autoNextID clk w) := by
    unfold Snowflake.GenerateID
    have hN : ¬ s.mode = Normal := by rw [hmode]; decide
    rw [if_neg hN, if_pos hmode]
  have hz : and64 (add64 s.step 1) s.MaxStep = 0 := by
    rw [hmax, hstep, next_step_eq]; decide
  have hadd : add64 s.lastTimestamp 1 = s.lastTimestamp + 1 := wrap64_of_isInt64 hT
  rw [hG, autoNextID_wrap s clk w hnow hz, hadd]
  refine ⟨rfl, ?_, ?_⟩
  · rw [Parse_eq s _ hmax]
    exact compose_mod_4096 _ rfl
  · intro hn hlo hhi
    have hc := Parse_compose { s with step := 0, lastTimestamp := s.lastTimestamp + 1 }
      ⟨hmax, hn, ⟨le_refl _, by show (0 : Int) ≤ 4095; omega⟩⟩ hT hlo hhi
    have hp := Parse_congr s { s with step := 0, lastTimestamp := s.lastTimestamp + 1 }
      (Snowflake.compose { s with step := 0, lastTimestamp := s.lastTimestamp + 1 }) rfl rfl
    rw [hc] at hp
    rw [← hp]

/-- Witness of C6 (amended): the setting of the test, `lastTimestamp` 1000 ms
ahead of the clock and the sequence at 4095. -/
theorem auto_exhaustion_amended_witness :
    exhaustedAuto.GenerateID sampleClock world0 0 = some
      { id := 4219473920
        err := none
        post := { sampleAuto with lastTimestamp := 1701388801006, step := 0 }
        world := { pos := 2, slept := 0 } } ∧
    (exhaustedAuto.Parse (Snowflake.compose
      { exhaustedAuto with step := 0, lastTimestamp := exhaustedAuto.lastTimestamp + 1 })).1
      = exhaustedAuto.lastTimestamp + 1 :=
  have h := auto_exhaustion_amended exhaustedAuto sampleClock world0 0 rfl rfl rfl
    (by decide) (by decide)
  ⟨h.1.trans (by decide), h.2.2 (by decide) (by decide) (by decide)⟩

/-- Counterexample to C6 as stated: the `AutoTime` generator of an `Option` with
start time 1950-01-01, with `lastTimestamp = T` 1000 ms ahead of the 2023 clock
and the sequence at 4095. The reading is below `T` and the call leaves
`lastTimestamp = T + 1`, but the offset needs 42 bits and `Parse` decodes the ID
to another timestamp. -/
theorem auto_exhaustion_counterexample :
    (oldExhaustedAuto.getCurrentTime sampleClock world0).1 ≤ oldExhaustedAuto.lastTimestamp ∧
    (oldExhaustedAuto.GenerateID sampleClock world0 0).map
        (fun o => (o.id, o.err, o.post.lastTimestamp, o.post.step))
      = some (-8663358861886877696, none, 1701388801006, 0) ∧
    oldExhaustedAuto.Parse (-8663358861886877696) = (-2696657710098, 1, 0, none) ∧
    (-2696657710098 : Int) ≠ oldExhaustedAuto.lastTimestamp + 1 :=
  ⟨by decide, by decide, by decide, by decide⟩

/-- C7 (Normal-mode sequence exhaustion): in mode `Normal`, from a state with
`MaxStep = 4095`, sequence 4095 and `lastTimestamp = T`, when `getCurrentTime`
yields `T` and some later clock sample exceeds `T`, there is a first such sample,
number `k`; with a bound of at least `k` iterations `GenerateID` returns, with a
nil error, the ID composed from that sample and sequence 0 and leaves that state;
and whatever the bound, a call that returns has returned exactly this, so no ID
with timestamp at most `T` is ever returned. -/
theorem normal_exhaustion (s : Snowflake) (clk : Clock) (w : World)
    (hmode : s.mode = Normal) (hmax : s.MaxStep = 4095) (hstep : s.step = 4095)
    (hnow : (s.getCurrentTime clk w).1 = s.lastTimestamp)
    (hex : ∃ j, s.lastTimestamp < clk ((s.getCurrentTime clk w).2.pos + j)) :
    ∃ k, s.lastTimestamp < clk ((s.getCurrentTime clk w).2.pos + k) ∧
      (∀ j, j < k → clk ((s.getCurrentTime clk w).2.pos + j) ≤ s.lastTimestamp) ∧
      (∀ fuel, k ≤ fuel → s.GenerateID clk w fuel = some
        { id := Snowflake.compose
            { s with step := 0, lastTimestamp := clk ((s.getCurrentTime clk w).2.pos + k) }
          err := none
          post := { s with step := 0, lastTimestamp := clk ((s.getCurrentTime clk w).2.pos + k) }
          world := { pos := (s.getCurrentTime clk w).2.pos + k + 1
                     slept := (s.getCurrentTime clk w).2.slept } }) ∧
      (∀ fuel, fuel < k → s.GenerateID clk w fuel = none) ∧
      (∀ fuel o, s.GenerateID clk w fuel = some o →
        o.err = none ∧ o.post.step = 0 ∧
        o.post.lastTimestamp = clk ((s.getCurrentTime clk w).2.pos + k) ∧
        s.lastTimestamp < o.post.lastTimestamp) := by
  classical
  have hG : ∀ fuel, s.GenerateID clk w fuel = s.normalNextID clk w fuel := by
    intro fuel; unfold Snowflake.GenerateID; rw [if_pos hmode]
  have hz : and64 (add64 s.step 1) s.MaxStep = 0 := by
    rw [hmax, hstep, next_step_eq]; decide
  have hgt := Nat.find_spec hex
  have hle : ∀ j, j < Nat.find hex →
      clk ((s.getCurrentTime clk w).2.pos + j) ≤ s.lastTimestamp := by
    intro j hj
    have := Nat.find_min hex hj
    omega
  have hlong : ∀ fuel, Nat.find hex ≤ fuel → s.GenerateID clk w fuel = some
      { id := Snowflake.compose
          { s with step := 0
                   lastTimestamp := clk ((s.getCurrentTime clk w).2.pos + Nat.find hex) }
        err := none
        post := { s with step := 0
                         lastTimestamp := clk ((s.getCurrentTime clk w).2.pos + Nat.find hex) }
        world := { pos := (s.getCurrentTime clk w).2.pos + Nat.find hex + 1
                   slept := (s.getCurrentTime clk w).2.slept } } := by
    intro fuel hk
    rw [hG, normalNextID_wrap s clk w fuel hnow hz]
    have h1 := timeMillsLoop_first clk s.lastTimestamp (s.getCurrentTime clk w).2.slept
      (Nat.find hex) fuel (s.getCurrentTime clk w).2.pos hle hgt hk
    rw [h1]
    rfl
  have hshort : ∀ fuel, fuel < Nat.find hex → s.GenerateID clk w fuel = none := by
    intro fuel hk
    rw [hG, normalNextID_wrap s clk w fuel hnow hz]
    have h1 := timeMillsLoop_short clk s.lastTimestamp (s.getCurrentTime clk w).2.slept
      fuel (Nat.find hex) (s.getCurrentTime clk w).2.pos hle hk
    rw [h1]
    rfl
  refine ⟨Nat.find hex, hgt, hle, hlong, hshort, ?_⟩
  intro fuel o ho
  rcases Nat.lt_or_ge fuel (Nat.find hex) with hk | hk
  · rw [hshort fuel hk] at ho; cases ho
  · rw [hlong fuel hk] at ho
    obtain rfl := Option.some.inj ho
    exact ⟨rfl, rfl, rfl, hgt⟩

/-- Witness of C7: on the sample clock the third sample after the first reading
of the call is the first one past `lastTimestamp`; two iterations suffice. -/
theorem normal_exhaustion_witness :
    exhaustedNormal.GenerateID sampleClock world0 2 = some
      { id := 25169920
        err := none
        post := { sampleNormal with lastTimestamp := 1701388800006, step := 0 }
        world := { pos := 4, slept := 0 } } :=
  have ⟨k, h1, h2, h3, _, _⟩ :=
    normal_exhaustion exhaustedNormal sampleClock world0 rfl rfl rfl (by decide)
      ⟨2, by decide⟩
  match k, h1, h2, h3 with
  | 0, h1, _, _ => absurd h1 (by decide)
  | 1, h1, _, _ => absurd h1 (by decide)
  | 2, _, _, h3 => (h3 2 (le_refl 2)).trans (by decide)
  | _ + 3, _, h2, _ => absurd (h2 2 (by omega)) (by decide)

/-- C8 (Parse equals its specification): on a generator built by `NewSnowflake`,
for every integer `id` (negative ones included), `Parse` returns what the
specification states, `((id >> 22) + epoch, (id >> 12) & 1023, id & 4095)` with
an arithmetic shift and a nil error; in particular the expression
`id & (1023 << 12) >> 12` of the code equals `(id >> 12) & 1023`. -/
theorem parse_refines_spec (option : Options) (now : Time) (g : Snowflake) (id : Int)
    (hnew : NewSnowflake option now = Except.ok g) :
    g.Parse id = ParseSpec g.epoch id ∧
    g.Parse id = (add64 (sar64 id 22) g.epoch, and64 (sar64 id 12) 1023, and64 id 4095, none) ∧
    sar64 (and64 id (shl64 ((1 <<< NodeBits : Int) - 1) StepBits)) StepBits
      = and64 (sar64 id 12) 1023 := by
  obtain ⟨_, _, hg⟩ := NewSnowflake_ok option now g hnew
  have hM : g.MaxStep = 4095 := by rw [hg]
  refine ⟨by rw [Parse_eq g id hM, ParseSpec_eq], ?_, ?_⟩
  · rw [Parse_eq g id hM, sar64_22, sar64_12, and64_1023, and64_4095]
    rfl
  · have hs : StepBits = 12 := rfl
    rw [nodeMask_eq, hs, and64_mask, sar64_12, sar64_12, and64_1023]
    omega

/-- Witness of C8: the generator of the sample `Option` and the ID -1. -/
theorem parse_refines_spec_witness :
    sampleNormal.Parse (-1) = ParseSpec sampleNormal.epoch (-1) ∧
    sampleNormal.Parse (-1) = (1701388799999, 1023, 4095, none) :=
  ⟨(parse_refines_spec sampleOption sampleNow sampleNormal (-1) rfl).1, by decide⟩

/-- C9 (bit layout, I2): every ID that `GenerateID` returns without error is
`((lastTimestamp - epoch) << 22) | (node << 12) | step` over the state after the
call; when there the node is in `[0,1023]`, the sequence in `[0,4095]` and
`0 ≤ lastTimestamp - epoch < 2^41`, the ID is non-negative, below `2^63` and
equal to `(lastTimestamp - epoch) * 2^22 + node * 2^12 + step`, so that bits
62-22, 21-12 and 11-0 hold the three fields. -/
theorem bit_layout (s : Snowflake) (clk : Clock) (w : World) (fuel : Nat) (o : Outcome)
    (h : s.GenerateID clk w fuel = some o) (herr : o.err = none) :
    o.id = or64 (or64 (shl64 (sub64 o.post.lastTimestamp o.post.epoch) 22)
      (shl64 o.post.node 12)) o.post.step ∧
    ((0 ≤ o.post.node ∧ o.post.node ≤ 1023) → (0 ≤ o.post.step ∧ o.post.step ≤ 4095) →
      (0 ≤ o.post.lastTimestamp - o.post.epoch ∧
        o.post.lastTimestamp - o.post.epoch < 2 ^ 41) →
      0 ≤ o.id ∧ o.id < 2 ^ 63 ∧
      o.id = (o.post.lastTimestamp - o.post.epoch) * 2 ^ 22 + o.post.node * 2 ^ 12
        + o.post.step ∧
      o.id / 2 ^ 22 = o.post.lastTimestamp - o.post.epoch ∧
      o.id / 2 ^ 12 % 2 ^ 10 = o.post.node ∧
      o.id % 2 ^ 12 = o.post.step) := by
  obtain ⟨hid, _⟩ := GenerateID_ok s clk w fuel o h herr
  refine ⟨hid, ?_⟩
  intro hn hs hera
  rw [hid, compose_eq_sum o.post hn hs (by unfold Snowflake.inEra; omega)]
  omega

/-- Witness of C9: the first call on the sample `Normal` generator. -/
theorem bit_layout_witness :
    (20975616 : Int) = or64 (or64 (shl64 (sub64 1701388800005 1701388800000) 22)
      (shl64 1 12)) 0 ∧
    (20975616 : Int) = (1701388800005 - 1701388800000) * 2 ^ 22 + 1 * 2 ^ 12 + 0 :=
  have h := bit_layout sampleNormal sampleClock world0 0
    (Snowflake.issue sampleNormal 1701388800005 { pos := 1, slept := 0 }) (by decide) rfl
  ⟨h.1, (h.2 (by decide) (by decide) (by decide)).2.2.1⟩

/-- C10 (cross-node uniqueness): two generators with `MaxStep = 4095` and
distinct nodes in `[0,1023]` never return the same ID, for any epochs,
timestamps, sequence values and clocks; `Parse` reads the node back from any
composed ID; and the composition is injective on fields in range. -/
theorem cross_node_uniqueness :
    (∀ (s1 s2 : Snowflake) (clk1 clk2 : Clock) (w1 w2 : World) (fuel1 fuel2 : Nat)
        (o1 o2 : Outcome),
      s1.MaxStep = 4095 → s2.MaxStep = 4095 →
      (0 ≤ s1.node ∧ s1.node ≤ 1023) → (0 ≤ s2.node ∧ s2.node ≤ 1023) → s1.node ≠ s2.node →
      s1.GenerateID clk1 w1 fuel1 = some o1 → o1.err = none →
      s2.GenerateID clk2 w2 fuel2 = some o2 → o2.err = none → o1.id ≠ o2.id) ∧
    (∀ s : Snowflake, s.fieldsOk →
      (s.Parse s.compose).2.1 = s.node ∧ s.compose / 2 ^ 12 % 2 ^ 10 = s.node) ∧
    (∀ s1 s2 : Snowflake, s1.fieldsOk → s2.fieldsOk → s1.inEra → s2.inEra →
      s1.compose = s2.compose →
      s1.lastTimestamp - s1.epoch = s2.lastTimestamp - s2.epoch ∧ s1.node = s2.node ∧
        s1.step = s2.step) := by
  have hnode : ∀ s : Snowflake, s.fieldsOk →
      (s.Parse s.compose).2.1 = s.node ∧ s.compose / 2 ^ 12 % 2 ^ 10 = s.node := by
    intro s hf
    have h1 := (Parse_compose_low s hf).1
    refine ⟨h1, ?_⟩
    rw [Parse_eq s _ hf.1] at h1
    simpa using h1
  refine ⟨?_, hnode, ?_⟩
  · intro s1 s2 clk1 clk2 w1 w2 fuel1 fuel2 o1 o2 hM1 hM2 hr1 hr2 hne h1 he1 h2 he2 heq
    obtain ⟨hid1, hn1, _, hMo1, _⟩ := GenerateID_ok s1 clk1 w1 fuel1 o1 h1 he1
    obtain ⟨hid2, hn2, _, hMo2, _⟩ := GenerateID_ok s2 clk2 w2 fuel2 o2 h2 he2
    have hfo1 : o1.post.fieldsOk :=
      ⟨by rw [hMo1, hM1], by rw [hn1]; exact hr1,
        GenerateID_step_range s1 clk1 w1 fuel1 o1 h1 he1 hM1⟩
    have hfo2 : o2.post.fieldsOk :=
      ⟨by rw [hMo2, hM2], by rw [hn2]; exact hr2,
        GenerateID_step_range s2 clk2 w2 fuel2 o2 h2 he2 hM2⟩
    have e1 := (hnode o1.post hfo1).2
    have e2 := (hnode o2.post hfo2).2
    rw [← hid1, hn1] at e1
    rw [← hid2, hn2, ← heq] at e2
    exact hne (e1.symm.trans e2)
  · intro s1 s2 hf1 hf2 hera1 hera2 heq
    rw [compose_eq_sum s1 hf1.2.1 hf1.2.2 hera1, compose_eq_sum s2 hf2.2.1 hf2.2.2 hera2] at heq
    obtain ⟨_, hn1, hs1⟩ := hf1
    obtain ⟨_, hn2, hs2⟩ := hf2
    unfold Snowflake.inEra at hera1 hera2
    omega

/-- Witness of C10: the sample generator and its copy for node 2, on the same
clock, return different IDs. -/
theorem cross_node_uniqueness_witness :
    (Snowflake.issue sampleNormal 1701388800005 { pos := 1, slept := 0 }).id ≠
      (Snowflake.issue { sampleNormal with node := 2 } 1701388800005
        { pos := 1, slept := 0 }).id :=
  cross_node_uniqueness.1 sampleNormal { sampleNormal with node := 2 } sampleClock sampleClock
    world0 world0 0 0 _ _ rfl rfl (by decide) (by decide) (by decide) (by decide) rfl
    (by decide) rfl

/-! ## Modes, errors and runs -/

theorem GenerateID_normal (s : Snowflake) (clk : Clock) (w : World) (fuel : Nat)
    (h : s.mode = Normal) : s.GenerateID clk w fuel = s.normalNextID clk w fuel := by
  unfold Snowflake.GenerateID; rw [if_pos h]

theorem GenerateID_auto (s : Snowflake) (clk : Clock) (w : World) (fuel : Nat)
    (h : s.mode = AutoTime) : s.GenerateID clk w fuel = some (s.autoNextID clk w) := by
  have hN : ¬ s.mode = Normal := by rw [h]; decide
  unfold Snowflake.GenerateID; rw [if_neg hN, if_pos h]

theorem GenerateID_noMode (s : Snowflake) (clk : Clock) (w : World) (fuel : Nat)
    (hN : s.mode ≠ Normal) (hA : s.mode ≠ AutoTime) :
    s.GenerateID clk w fuel
      = some { id := 0, err := some Error.ErrNoMode, post := s, world := w } := by
  unfold Snowflake.GenerateID; rw [if_neg hN, if_neg hA]

theorem autoNextID_err (s : Snowflake) (clk : Clock) (w : World) :
    (s.autoNextID clk w).err = none := by
  rcases le_or_lt (s.getCurrentTime clk w).1 s.lastTimestamp with hle | hgt
  · by_cases hz : and64 (add64 s.step 1) s.MaxStep = 0
    · rw [autoNextID_wrap s clk w hle hz]; rfl
    · rw [autoNextID_same s clk w hle hz]; rfl
  · rw [autoNextID_new s clk w hgt]; rfl

/-- The error of a call that returns tells the mode: `ErrNoMode` is returned
exactly in the modes other than `Normal` and `AutoTime`. -/
theorem GenerateID_errNoMode (s : Snowflake) (clk : Clock) (w : World) (fuel : Nat)
    (o : Outcome) (h : s.GenerateID clk w fuel = some o) :
    o.err = some Error.ErrNoMode ↔ ¬ (s.mode = Normal ∨ s.mode = AutoTime) := by
  by_cases hN : s.mode = Normal
  · rw [GenerateID_normal s clk w fuel hN] at h
    constructor
    · intro herr
      exfalso
      rcases lt_trichotomy (s.getCurrentTime clk w).1 s.lastTimestamp with hlt | heq | hgt
      · rw [normalNextID_rollback s clk w fuel hlt] at h
        obtain rfl := Option.some.inj h
        cases herr
      · by_cases hz : and64 (add64 s.step 1) s.MaxStep = 0
        · rw [normalNextID_wrap s clk w fuel heq hz, Option.map_eq_some'] at h
          obtain ⟨q, _, rfl⟩ := h
          cases herr
        · rw [normalNextID_same s clk w fuel heq hz] at h
          obtain rfl := Option.some.inj h
          cases herr
      · rw [normalNextID_new s clk w fuel hgt] at h
        obtain rfl := Option.some.inj h
        cases herr
    · intro hn; exact absurd (Or.inl hN) hn
  · by_cases hA : s.mode = AutoTime
    · rw [GenerateID_auto s clk w fuel hA] at h
      obtain rfl := Option.some.inj h
      constructor
      · intro herr; rw [autoNextID_err] at herr; cases herr
      · intro hn; exact absurd (Or.inr hA) hn
    · rw [GenerateID_noMode s clk w fuel hN hA] at h
      obtain rfl := Option.some.inj h
      constructor
      · intro _ hm; rcases hm with hm | hm
        · exact hN hm
        · exact hA hm
      · intro _; rfl

theorem GenerateID_mode (s : Snowflake) (clk : Clock) (w : World) (fuel : Nat) (o : Outcome)
    (h : s.GenerateID clk w fuel = some o) : o.post.mode = s.mode := by
  rcases GenerateID_cases s clk w fuel o h with ⟨_, _, hp⟩ | ⟨_, _, _, _, hp, _⟩
  · rw [hp]
  · rw [hp]

/-- C11 (unknown mode), amended: `NewSnowflake` does not check `Option.Mode`; for
the generator it returns, a `GenerateID` call returns `ErrNoMode` exactly when
`Option.Mode` is neither `Normal` nor `AutoTime`, so the error is unreachable for
these two modes only. -/
theorem unknown_mode_amended (option : Options) (now : Time) (g : Snowflake)
    (clk : Clock) (fuel n : Nat) (w : World) (tr : List Outcome) (o : Outcome)
    (hnew : NewSnowflake option now = Except.ok g)
    (hrun : calls clk fuel n g w = some tr) (ho : o ∈ tr) :
    (o.err = some Error.ErrNoMode ↔ ¬ (option.Mode = Normal ∨ option.Mode = AutoTime)) := by
  obtain ⟨_, _, hg⟩ := NewSnowflake_ok option now g hnew
  have hgm : g.mode = option.Mode := by rw [hg]
  obtain ⟨s1, w1, hm1, hcall⟩ :=
    calls_mem clk fuel (fun s => s.mode = g.mode)
      (fun s w o hs hcall => (GenerateID_mode s clk w fuel o hcall).trans hs)
      n g w tr rfl hrun o ho
  rw [GenerateID_errNoMode s1 clk w1 fuel o hcall, hm1, hgm]

/-- Witness of C11 (amended): the first call on the generator of the sample
`Option`, whose mode is `Normal`, does not return `ErrNoMode`. -/
theorem unknown_mode_amended_witness :
    ¬ ((Snowflake.issue sampleNormal 1701388800005 { pos := 1, slept := 0 }).err
      = some Error.ErrNoMode) :=
  fun h =>
    (unknown_mode_amended sampleOption sampleNow sampleNormal sampleClock 0 1 world0
      [Snowflake.issue sampleNormal 1701388800005 { pos := 1, slept := 0 }]
      (Snowflake.issue sampleNormal 1701388800005 { pos := 1, slept := 0 })
      rfl (by decide) (by decide)).1 h (Or.inl rfl)

/-- Counterexample to C11 as stated: `NewSnowflake` accepts an `Option` with
`Mode` 2, and `GenerateID` on the generator it returns yields `ErrNoMode`. -/
theorem unknown_mode_counterexample :
    NewSnowflake oddModeOption sampleNow = Except.ok { sampleNormal with mode := 2 } ∧
    Snowflake.GenerateID { sampleNormal with mode := 2 } sampleClock world0 0
      = some { id := 0, err := some Error.ErrNoMode, post := { sampleNormal with mode := 2 },
               world := world0 } :=
  ⟨rfl, by decide⟩

/-- C12 (AutoTime never fails): in mode `AutoTime`, for every state, clock and
bound, `GenerateID` returns, and returns a nil error. -/
theorem auto_never_fails (s : Snowflake) (clk : Clock) (w : World) (fuel : Nat)
    (hmode : s.mode = AutoTime) :
    s.GenerateID clk w fuel = some (s.autoNextID clk w) ∧ (s.autoNextID clk w).err = none :=
  ⟨GenerateID_auto s clk w fuel hmode, autoNextID_err s clk w⟩

/-- Witness of C12: the sample `AutoTime` generator with the clock 1000 ms behind
`lastTimestamp`. -/
theorem auto_never_fails_witness :
    exhaustedAuto.GenerateID sampleClock world0 0
        = some (exhaustedAuto.autoNextID sampleClock world0) ∧
      (exhaustedAuto.autoNextID sampleClock world0).err = none :=
  auto_never_fails exhaustedAuto sampleClock world0 0 rfl

/-- C13 (start-time validation): `NewSnowflake` fails with `ErrStartTimeAhead`
exactly when `Option.StartTime` is strictly later than the time read at
construction; the check comes before the node check, so a later start time with
`NodeID` 1024 yields `ErrStartTimeAhead`; a start time equal to the time read
passes the check, the result then depending on the node alone. -/
theorem start_time_validation (option : Options) (now : Time) :
    (NewSnowflake option now = Except.error Error.ErrStartTimeAhead ↔
      now.unixNano < option.StartTime.unixNano) ∧
    NewSnowflake { option with NodeID := 1024, StartTime := { unixNano := now.unixNano + 1 } }
      now = Except.error Error.ErrStartTimeAhead ∧
    NewSnowflake { option with StartTime := now } now =
      (if option.NodeID > 1023 then Except.error Error.ErrInvalidMachineID
       else Except.ok
        { node := option.NodeID, step := 0, MaxStep := 4095, epoch := now.UnixMilli,
          lastTimestamp := 0, mode := option.Mode, maxWaitTime := option.MaxWaitTime }) := by
  have key : ∀ (opt : Options),
      (NewSnowflake opt now = Except.error Error.ErrStartTimeAhead ↔
        now.unixNano < opt.StartTime.unixNano) := by
    intro opt
    unfold NewSnowflake Time.After
    rw [maxNode_eq, maxStep_eq]
    by_cases h : now.unixNano < opt.StartTime.unixNano
    · simp [h]
    · by_cases h2 : opt.NodeID > 1023
      · simp [h, h2]
      · simp [h, h2]
  refine ⟨key option, ?_, ?_⟩
  · rw [key]
    show now.unixNano < now.unixNano + 1
    omega
  · unfold NewSnowflake Time.After
    rw [maxNode_eq, maxStep_eq]
    simp

/-- C14 (initial state): the generator that `NewSnowflake` returns has sequence 0,
`lastTimestamp` 0, `MaxStep = 4095`, which is the value of `-1 ^ (-1 << 12)`,
the start time in Unix milliseconds as epoch, and the node, mode and maximal
wait of the `Option`. -/
theorem initial_state (option : Options) (now : Time) (g : Snowflake)
    (hnew : NewSnowflake option now = Except.ok g) :
    g.step = 0 ∧ g.lastTimestamp = 0 ∧ g.MaxStep = 4095 ∧
    xor64 (-1) (shl64 (-1) 12) = 4095 ∧
    g.epoch = option.StartTime.UnixMilli ∧ g.node = option.NodeID ∧
    g.mode = option.Mode ∧ g.maxWaitTime = option.MaxWaitTime := by
  obtain ⟨_, _, hg⟩ := NewSnowflake_ok option now g hnew
  rw [hg]
  exact ⟨rfl, rfl, rfl, maxStep_eq, rfl, rfl, rfl, rfl⟩

/-- Witness of C14: the generator of the sample `Option`. -/
theorem initial_state_witness :
    sampleNormal.step = 0 ∧ sampleNormal.lastTimestamp = 0 ∧ sampleNormal.MaxStep = 4095 ∧
    xor64 (-1) (shl64 (-1) 12) = 4095 ∧
    sampleNormal.epoch = sampleOption.StartTime.UnixMilli ∧
    sampleNormal.node = sampleOption.NodeID ∧
    sampleNormal.mode = sampleOption.Mode ∧
    sampleNormal.maxWaitTime = sampleOption.MaxWaitTime :=
  initial_state sampleOption sampleNow sampleNormal rfl

/-- C15 (new-millisecond reset): in modes `Normal` and `AutoTime`, for every state
and clock, when `getCurrentTime` yields a time `now` past `lastTimestamp`,
`GenerateID` returns, with a nil error, the ID composed from `now`, the node and
sequence 0, and leaves sequence 0 and `lastTimestamp = now`. The state is
arbitrary, so this holds as well after `AutoTime` has advanced `lastTimestamp`
by itself. -/
theorem new_millisecond_reset (s : Snowflake) (clk : Clock) (w : World) (fuel : Nat)
    (hmode : s.mode = Normal ∨ s.mode = AutoTime)
    (hnow : s.lastTimestamp < (s.getCurrentTime clk w).1) :
    s.GenerateID clk w fuel = some
      { id := Snowflake.compose
          { s with step := 0, lastTimestamp := (s.getCurrentTime clk w).1 }
        err := none
        post := { s with step := 0, lastTimestamp := (s.getCurrentTime clk w).1 }
        world := (s.getCurrentTime clk w).2 } := by
  rcases hmode with h | h
  · rw [GenerateID_normal s clk w fuel h, normalNextID_new s clk w fuel hnow]; rfl
  · rw [GenerateID_auto s clk w fuel h, autoNextID_new s clk w hnow]; rfl

/-- Witness of C15: the sample `AutoTime` generator after the call that advanced
`lastTimestamp` to 1701388801006 by itself, on a clock that is past it. -/
theorem new_millisecond_reset_witness :
    Snowflake.GenerateID { sampleAuto with lastTimestamp := 1701388801006 } lateClock world0 0
      = some
        { id := 8388612096
          err := none
          post := { sampleAuto with lastTimestamp := 1701388802000 }
          world := { pos := 1, slept := 0 } } :=
  (new_millisecond_reset { sampleAuto with lastTimestamp := 1701388801006 } lateClock world0 0
    (Or.inr rfl) (by decide)).trans (by decide)

/-- C16 (AutoTime regression clamp): in mode `AutoTime` with `MaxStep = 4095`, a
call whose `getCurrentTime` yields less than `lastTimestamp` returns the same ID
and leaves the same state as a call for which it yields `lastTimestamp`: the
sequence becomes `(sequence + 1) mod 4096`, and `lastTimestamp` is unchanged
unless the sequence became 0, in which case it is incremented. -/
theorem auto_regression_clamp (s : Snowflake) (clk1 clk2 : Clock) (w1 w2 : World)
    (fuel : Nat) (hmode : s.mode = AutoTime) (hmax : s.MaxStep = 4095)
    (hlt : (s.getCurrentTime clk1 w1).1 < s.lastTimestamp)
    (heq : (s.getCurrentTime clk2 w2).1 = s.lastTimestamp) :
    s.GenerateID clk1 w1 fuel = some (s.autoNextID clk1 w1) ∧
    s.GenerateID clk2 w2 fuel = some (s.autoNextID clk2 w2) ∧
    (s.autoNextID clk1 w1).err = none ∧
    (s.autoNextID clk1 w1).id = (s.autoNextID clk2 w2).id ∧
    (s.autoNextID clk1 w1).post = (s.autoNextID clk2 w2).post ∧
    (s.autoNextID clk1 w1).post.step = (s.step + 1) % 4096 ∧
    (s.autoNextID clk1 w1).post.lastTimestamp =
      (if (s.autoNextID clk1 w1).post.step = 0 then add64 s.lastTimestamp 1
       else s.lastTimestamp) := by
  refine ⟨GenerateID_auto s clk1 w1 fuel hmode, GenerateID_auto s clk2 w2 fuel hmode,
    autoNextID_err s clk1 w1, ?_⟩
  have hle1 : (s.getCurrentTime clk1 w1).1 ≤ s.lastTimestamp := by omega
  have hle2 : (s.getCurrentTime clk2 w2).1 ≤ s.lastTimestamp := by omega
  have hstep : and64 (add64 s.step 1) s.MaxStep = (s.step + 1) % 4096 := by
    rw [hmax, next_step_eq]
  by_cases hz : and64 (add64 s.step 1) s.MaxStep = 0
  · rw [autoNextID_wrap s clk1 w1 hle1 hz, autoNextID_wrap s clk2 w2 hle2 hz,
      issue_post_step, issue_post_lastTimestamp]
    dsimp only
    refine ⟨rfl, rfl, ?_, ?_⟩
    · rw [← hstep, hz]
    · rw [if_pos rfl]
  · rw [autoNextID_same s clk1 w1 hle1 hz, autoNextID_same s clk2 w2 hle2 hz,
      issue_post_step, issue_post_lastTimestamp]
    dsimp only
    refine ⟨rfl, rfl, hstep, ?_⟩
    rw [if_neg hz]

/-- Witness of C16: the sample `AutoTime` generator with `lastTimestamp`
1701388800006, on the sample clock read from its first reading (1 ms behind) and
read from its fourth reading (equal to `lastTimestamp`). -/
theorem auto_regression_clamp_witness :
    (Snowflake.autoNextID { sampleAuto with lastTimestamp := 1701388800006, step := 9 }
        sampleClock world0).id
      = (Snowflake.autoNextID { sampleAuto with lastTimestamp := 1701388800006, step := 9 }
        sampleClock { pos := 3, slept := 0 }).id ∧
    (Snowflake.autoNextID { sampleAuto with lastTimestamp := 1701388800006, step := 9 }
        sampleClock world0).post
      = { sampleAuto with lastTimestamp := 1701388800006, step := 10 } :=
  have h := auto_regression_clamp
    { sampleAuto with lastTimestamp := 1701388800006, step := 9 } sampleClock sampleClock
    world0 { pos := 3, slept := 0 } 0 rfl rfl (by decide) (by decide)
  ⟨h.2.2.2.1, by decide⟩

theorem calls_succ (clk : Clock) (fuel n : Nat) (s : Snowflake) (w : World) (o : Outcome)
    (tr : List Outcome) (h1 : s.GenerateID clk w fuel = some o)
    (h2 : calls clk fuel n o.post o.world = some tr) :
    calls clk fuel (n + 1) s w = some (o :: tr) := by
  unfold calls
  rw [h1]
  simp only [h2, Option.map_some']

/-- One call in mode `AutoTime` on a clock that is not past `lastTimestamp`: the
pair of `lastTimestamp` and counter advances by 1. -/
theorem autoNextID_frozen_step (s : Snowflake) (clk : Clock) (w : World)
    (hM : s.MaxStep = 4095) (hs : 0 ≤ s.step ∧ s.step ≤ 4095) (hL : isInt64 s.lastTimestamp)
    (hle : (s.getCurrentTime clk w).1 ≤ s.lastTimestamp) :
    (s.autoNextID clk w).post.mode = s.mode ∧
    (s.autoNextID clk w).post.MaxStep = s.MaxStep ∧
    (s.autoNextID clk w).post.step = (s.step + 1) % 4096 ∧
    (s.autoNextID clk w).post.lastTimestamp
      = wrap64 (s.lastTimestamp + (s.step + 1) / 4096) := by
  have hstep : and64 (add64 s.step 1) s.MaxStep = (s.step + 1) % 4096 := by
    rw [hM, next_step_eq]
  unfold isInt64 at hL
  by_cases hz : and64 (add64 s.step 1) s.MaxStep = 0
  · rw [autoNextID_wrap s clk w hle hz, issue_post_mode, issue_post_MaxStep, issue_post_step,
      issue_post_lastTimestamp]
    dsimp only
    rw [hz] at hstep
    refine ⟨rfl, rfl, hstep, ?_⟩
    unfold add64 wrap64
    omega
  · rw [autoNextID_same s clk w hle hz, issue_post_mode, issue_post_MaxStep, issue_post_step,
      issue_post_lastTimestamp]
    dsimp only
    refine ⟨rfl, rfl, hstep, ?_⟩
    rw [hstep] at hz
    unfold wrap64
    omega

/-- A run of `n` calls in mode `AutoTime` on a clock that is never past the
`lastTimestamp` of the moment. -/
theorem calls_frozen (clk : Clock) (fuel : Nat) :
    ∀ (n : Nat) (s : Snowflake) (w : World),
      s.mode = AutoTime → s.MaxStep = 4095 → (0 ≤ s.step ∧ s.step ≤ 4095) →
      isInt64 s.lastTimestamp → frozen clk n s w = true →
      ∃ tr, calls clk fuel n s w = some tr ∧ tr.length = n ∧ (∀ o ∈ tr, o.err = none) ∧
        (finalState s tr).step = (s.step + (n : Int)) % 4096 ∧
        (finalState s tr).lastTimestamp
          = wrap64 (s.lastTimestamp + (s.step + (n : Int)) / 4096) := by
  intro n
  induction n with
  | zero =>
    intro s w _ _ hs hL _
    refine ⟨[], rfl, rfl, fun o ho => absurd ho (List.not_mem_nil o), ?_, ?_⟩
    · show s.step = (s.step + ((0 : Nat) : Int)) % 4096
      omega
    · show s.lastTimestamp = wrap64 (s.lastTimestamp + (s.step + ((0 : Nat) : Int)) / 4096)
      unfold isInt64 at hL
      unfold wrap64
      omega
  | succ n ih =>
    intro s w hmode hM hs hL hf
    unfold frozen at hf
    rw [Bool.and_eq_true, decide_eq_true_eq] at hf
    obtain ⟨hle, hf⟩ := hf
    obtain ⟨h1, h2, h3, h4⟩ := autoNextID_frozen_step s clk w hM hs hL hle
    have herr := autoNextID_err s clk w
    have hG := GenerateID_auto s clk w fuel hmode
    generalize s.autoNextID clk w = o at h1 h2 h3 h4 herr hG hf
    obtain ⟨tr, hc, hlen, hall, hst, hlt⟩ := ih o.post o.world (h1.trans hmode) (h2.trans hM)
      (by rw [h3]; omega) (by rw [h4]; exact isInt64_wrap64 _) hf
    refine ⟨o :: tr, calls_succ clk fuel n s w o tr hG hc, by simp [hlen], ?_, ?_, ?_⟩
    · intro x hx
      rcases List.mem_cons.1 hx with rfl | hx
      · exact herr
      · exact hall x hx
    · show (finalState o.post tr).step = (s.step + ((n + 1 : Nat) : Int)) % 4096
      rw [hst, h3]
      push_cast
      omega
    · show (finalState o.post tr).lastTimestamp
        = wrap64 (s.lastTimestamp + (s.step + ((n + 1 : Nat) : Int)) / 4096)
      rw [hlt, h3, h4]
      clear hst hlt h3 h4 hL hc hall ih
      push_cast
      unfold wrap64
      omega

/-- C18 (AutoTime under a frozen or regressed clock): in mode `AutoTime` with
`MaxStep = 4095`, from `lastTimestamp = T` (an `int64`) and sequence `s` in
`[0,4095]`, if during `n` successive calls every time `getCurrentTime` yields is
at most the `lastTimestamp` of the moment, then the `n` calls return with a nil
error and leave sequence `(s + n) mod 4096` and `lastTimestamp`
`T + (s + n) div 4096`, the sum being the `int64` one and the plain one whenever
that is an `int64`. -/
theorem auto_frozen_clock (clk : Clock) (fuel n : Nat) (s : Snowflake) (w : World)
    (hmode : s.mode = AutoTime) (hmax : s.MaxStep = 4095)
    (hstep : 0 ≤ s.step ∧ s.step ≤ 4095) (hT : isInt64 s.lastTimestamp)
    (hfrozen : frozen clk n s w = true) :
    ∃ tr, calls clk fuel n s w = some tr ∧ tr.length = n ∧ (∀ o ∈ tr, o.err = none) ∧
      (finalState s tr).step = (s.step + (n : Int)) % 4096 ∧
      (finalState s tr).lastTimestamp = add64 s.lastTimestamp ((s.step + (n : Int)) / 4096) ∧
      (isInt64 (s.lastTimestamp + (s.step + (n : Int)) / 4096) →
        (finalState s tr).lastTimestamp = s.lastTimestamp + (s.step + (n : Int)) / 4096) := by
  obtain ⟨tr, h1, h2, h3, h4, h5⟩ := calls_frozen clk fuel n s w hmode hmax hstep hT hfrozen
  refine ⟨tr, h1, h2, h3, h4, h5, ?_⟩
  intro hr
  rw [h5, wrap64_of_isInt64 hr]

/-- Witness of C18: three calls from sequence 4094 on the sample clock, which
stays behind `lastTimestamp`. -/
theorem auto_frozen_clock_witness :
    (finalState { exhaustedAuto with step := 4094 }
      ((calls sampleClock 0 3 { exhaustedAuto with step := 4094 } world0).getD [])).step = 1 ∧
    (finalState { exhaustedAuto with step := 4094 }
      ((calls sampleClock 0 3 { exhaustedAuto with step := 4094 } world0).getD [])).lastTimestamp
      = 1701388801006 := by
  obtain ⟨tr, h1, _, _, h4, _, h6⟩ :=
    auto_frozen_clock sampleClock 0 3 { exhaustedAuto with step := 4094 } world0 rfl rfl
      (by decide) (by decide) (by decide)
  rw [h1]
  exact ⟨h4.trans (by decide), (h6 (by decide)).trans (by decide)⟩

theorem GenerateID_counter (s : Snowflake) (clk : Clock) (w : World) (fuel : Nat)
    (o : Outcome) (h : s.GenerateID clk w fuel = some o)
    (hM : s.MaxStep = 4095) (hs : 0 ≤ s.step ∧ s.step ≤ 4095) :
    o.post.MaxStep = 4095 ∧ (0 ≤ o.post.step ∧ o.post.step ≤ 4095) := by
  by_cases herr : o.err = none
  · obtain ⟨_, _, _, hMo, _⟩ := GenerateID_ok s clk w fuel o h herr
    exact ⟨hMo.trans hM, GenerateID_step_range s clk w fuel o h herr hM⟩
  · rcases GenerateID_cases s clk w fuel o h with ⟨_, _, hp⟩ | ⟨he, _⟩
    · rw [hp]; exact ⟨hM, hs⟩
    · exact absurd he herr

/-- C19 (sequence range invariant): a `GenerateID` call that starts with
`MaxStep = 4095` and the sequence in `[0,4095]` leaves both so, in every mode,
for every clock and whether it returns an ID or an error; the generator that
`NewSnowflake` returns is in that state, hence so is every state of a run that
starts from it. -/
theorem sequence_range_invariant :
    (∀ (s : Snowflake) (clk : Clock) (w : World) (fuel : Nat) (o : Outcome),
      s.MaxStep = 4095 → (0 ≤ s.step ∧ s.step ≤ 4095) → s.GenerateID clk w fuel = some o →
      o.post.MaxStep = 4095 ∧ (0 ≤ o.post.step ∧ o.post.step ≤ 4095)) ∧
    (∀ (option : Options) (now : Time) (g : Snowflake),
      NewSnowflake option now = Except.ok g →
      (g.MaxStep = 4095 ∧ (0 ≤ g.step ∧ g.step ≤ 4095)) ∧
      ∀ (clk : Clock) (fuel n : Nat) (w : World) (tr : List Outcome) (o : Outcome),
        calls clk fuel n g w = some tr → o ∈ tr →
        o.post.MaxStep = 4095 ∧ (0 ≤ o.post.step ∧ o.post.step ≤ 4095)) := by
  refine ⟨fun s clk w fuel o hM hs h => GenerateID_counter s clk w fuel o h hM hs, ?_⟩
  intro option now g hnew
  obtain ⟨_, _, hg⟩ := NewSnowflake_ok option now g hnew
  have hg0 : g.MaxStep = 4095 ∧ (0 ≤ g.step ∧ g.step ≤ 4095) := by
    rw [hg]
    refine ⟨rfl, ?_, ?_⟩
    · show (0 : Int) ≤ 0
      omega
    · show (0 : Int) ≤ 4095
      omega
  refine ⟨hg0, ?_⟩
  intro clk fuel n w tr o hrun ho
  obtain ⟨s1, w1, hP, hcall⟩ :=
    calls_mem clk fuel (fun s => s.MaxStep = 4095 ∧ (0 ≤ s.step ∧ s.step ≤ 4095))
      (fun s w o hs hcall => GenerateID_counter s clk w fuel o hcall hs.1 hs.2)
      n g w tr hg0 hrun o ho
  exact GenerateID_counter s1 clk w1 fuel o hcall hP.1 hP.2

/-- Witness of C19: a call in mode `Normal` at sequence 4095 that wraps, and the
second call of the generator of the sample `Option`. -/
theorem sequence_range_invariant_witness :
    (0 ≤ (Snowflake.issue { exhaustedNormal with step := 0 } 1701388800006
        { pos := 4, slept := 0 }).post.step ∧
      (Snowflake.issue { exhaustedNormal with step := 0 } 1701388800006
        { pos := 4, slept := 0 }).post.step ≤ 4095) ∧
    (0 ≤ (Snowflake.issue { sampleNormal with step := 1 } 1701388800005
        { pos := 2, slept := 0 }).post.step ∧
      (Snowflake.issue { sampleNormal with step := 1 } 1701388800005
        { pos := 2, slept := 0 }).post.step ≤ 4095) :=
  ⟨(sequence_range_invariant.1 exhaustedNormal sampleClock world0 2 _ rfl (by decide)
      (by decide)).2,
   ((sequence_range_invariant.2 sampleOption sampleNow sampleNormal rfl).2 sampleClock 0 2
      world0 ((calls sampleClock 0 2 sampleNormal world0).getD []) _ (by decide)
      (by decide)).2⟩

/-- C20 (the modes agree off regression and exhaustion): with `MaxStep = 4095` and
the sequence in `[0,4095]`, when `getCurrentTime` yields a time `now` that is at
least `lastTimestamp`, the case `now = lastTimestamp` with sequence 4095
excepted, `GenerateID` in mode `Normal` and in mode `AutoTime` both return, with
a nil error, the same ID, and leave the same `lastTimestamp` and sequence (the
states differ in the mode alone). -/
theorem modes_agree (s : Snowflake) (clk : Clock) (w : World) (fuel : Nat)
    (hmax : s.MaxStep = 4095) (hstep : 0 ≤ s.step ∧ s.step ≤ 4095)
    (hnow : s.lastTimestamp ≤ (s.getCurrentTime clk w).1)
    (hex : ¬ ((s.getCurrentTime clk w).1 = s.lastTimestamp ∧ s.step = 4095)) :
    ∃ o1 o2, Snowflake.GenerateID { s with mode := Normal } clk w fuel = some o1 ∧
      Snowflake.GenerateID { s with mode := AutoTime } clk w fuel = some o2 ∧
      o1.err = none ∧ o2.err = none ∧ o1.id = o2.id ∧
      o1.post.lastTimestamp = o2.post.lastTimestamp ∧ o1.post.step = o2.post.step ∧
      o1.post = { o2.post with mode := Normal } ∧ o1.world = o2.world := by
  have hN := GenerateID_normal { s with mode := Normal } clk w fuel rfl
  have hA := GenerateID_auto { s with mode := AutoTime } clk w fuel rfl
  have hstepeq : and64 (add64 s.step 1) s.MaxStep = (s.step + 1) % 4096 := by
    rw [hmax, next_step_eq]
  rcases eq_or_lt_of_le hnow with heq | hgt
  · have hz : and64 (add64 s.step 1) s.MaxStep ≠ 0 := by
      rw [hstepeq]
      have : s.step ≠ 4095 := fun h => hex ⟨heq.symm, h⟩
      omega
    have h1 := normalNextID_same { s with mode := Normal } clk w fuel heq.symm hz
    have h2 := autoNextID_same { s with mode := AutoTime } clk w (le_of_eq heq.symm) hz
    rw [h1] at hN
    rw [h2] at hA
    exact ⟨_, _, hN, hA, rfl, rfl, rfl, rfl, rfl, rfl, rfl⟩
  · have h1 := normalNextID_new { s with mode := Normal } clk w fuel hgt
    have h2 := autoNextID_new { s with mode := AutoTime } clk w hgt
    rw [h1] at hN
    rw [h2] at hA
    exact ⟨_, _, hN, hA, rfl, rfl, rfl, rfl, rfl, rfl, rfl⟩

/-- Witness of C20: the second call on the sample generator, in the millisecond
of the first one. -/
theorem modes_agree_witness :
    Snowflake.GenerateID { sampleNormal with lastTimestamp := 1701388800005 } sampleClock
        { pos := 1, slept := 0 } 0
      = some (Snowflake.issue { sampleNormal with step := 1 } 1701388800005
          { pos := 2, slept := 0 }) ∧
    Snowflake.GenerateID { sampleAuto with lastTimestamp := 1701388800005 } sampleClock
        { pos := 1, slept := 0 } 0
      = some (Snowflake.issue { sampleAuto with step := 1 } 1701388800005
          { pos := 2, slept := 0 }) ∧
    (Snowflake.issue { sampleNormal with step := 1 } 1701388800005 { pos := 2, slept := 0 }).id
      = (Snowflake.issue { sampleAuto with step := 1 } 1701388800005
          { pos := 2, slept := 0 }).id := by
  obtain ⟨o1, o2, h1, h2, _, _, h5, _⟩ :=
    modes_agree { sampleNormal with lastTimestamp := 1701388800005 } sampleClock
      { pos := 1, slept := 0 } 0 rfl (by decide) (by decide) (by decide)
  have e1 : Snowflake.GenerateID { sampleNormal with lastTimestamp := 1701388800005 }
      sampleClock { pos := 1, slept := 0 } 0
      = some (Snowflake.issue { sampleNormal with step := 1 } 1701388800005
          { pos := 2, slept := 0 }) := by decide
  have e2 : Snowflake.GenerateID { sampleAuto with lastTimestamp := 1701388800005 }
      sampleClock { pos := 1, slept := 0 } 0
      = some (Snowflake.issue { sampleAuto with step := 1 } 1701388800005
          { pos := 2, slept := 0 }) := by decide
  refine ⟨e1, e2, ?_⟩
  have g1 := Option.some.inj (h1.symm.trans e1)
  have g2 := Option.some.inj (h2.symm.trans e2)
  rw [← g1, ← g2]
  exact h5

end SnowflakeGen
